import Mathlib

/-
Verification development for the psiflow repository.

The definitions below are a shallow embedding of the Python sources:
  src/psiflow/geometry.py            (Geometry, NullState, serialization)
  src/psiflow/reference/_cp2k.py     (CP2K output parsing, multiplicities)
  src/psiflow/reference/reference.py (atomic energy minimum search)
  src/psiflow/sampling/walker.py     (Walker, partition, update policy)
  src/psiflow/data.py                (FlowAtoms, Dataset operations)
  src/psiflow/utils.py               (get_index_element_mask)

Machine floats of the source are modelled as exact rationals; numpy
allclose comparisons are modelled with their exact arithmetic meaning
|a - b| <= atol + rtol * |b|.  Python exceptions are modelled with
Except / Option result types.
-/

/-- Scalar version of numpy isclose with explicit tolerances: the numpy
definition is abs(a - b) <= atol + rtol * abs(b), where b is the second
(reference) argument. -/
def npIsClose (rtol atol a b : ℚ) : Bool :=
  decide (|a - b| ≤ atol + rtol * |b|)

/-- Default rtol of numpy allclose, 1e-05. -/
def defaultRtol : ℚ := 1 / 100000

/-- Default atol of numpy allclose, 1e-08. -/
def defaultAtol : ℚ := 1 / 100000000

/-- A 3-vector of rationals, modelling one row of a float array of shape
(natoms, 3) in geometry.py. -/
structure Vec3 where
  x : ℚ
  y : ℚ
  z : ℚ
  deriving DecidableEq, Repr

/-- The zero vector. -/
def Vec3.zero : Vec3 := ⟨0, 0, 0⟩

/-- Componentwise numpy isclose on 3-vectors. -/
def Vec3.close (rtol atol : ℚ) (a b : Vec3) : Bool :=
  npIsClose rtol atol a.x b.x && npIsClose rtol atol a.y b.y &&
    npIsClose rtol atol a.z b.z

/-- A 3x3 matrix of rationals stored as rows, modelling the cell matrix of
geometry.py (rows are the lattice vectors). -/
structure Mat3 where
  r0 : Vec3
  r1 : Vec3
  r2 : Vec3
  deriving DecidableEq, Repr

/-- The all-zero cell matrix, modelling np.zeros((3, 3)). -/
def Mat3.zero : Mat3 := ⟨Vec3.zero, Vec3.zero, Vec3.zero⟩

/-- Matrix transpose. -/
def Mat3.transpose (m : Mat3) : Mat3 :=
  ⟨⟨m.r0.x, m.r1.x, m.r2.x⟩, ⟨m.r0.y, m.r1.y, m.r2.y⟩, ⟨m.r0.z, m.r1.z, m.r2.z⟩⟩

/-- Componentwise numpy allclose on 3x3 matrices. -/
def Mat3.close (rtol atol : ℚ) (a b : Mat3) : Bool :=
  Vec3.close rtol atol a.r0 b.r0 && Vec3.close rtol atol a.r1 b.r1 &&
    Vec3.close rtol atol a.r2 b.r2

/-- Model of np.any(cell): true when some entry of the matrix is nonzero. -/
def Mat3.anyNonzero (m : Mat3) : Bool :=
  decide (m ≠ Mat3.zero)

/-- Numpy allclose on equal-length lists of scalars. -/
def listClose (rtol atol : ℚ) (a b : List ℚ) : Bool :=
  a.length == b.length &&
    (a.zip b).all fun p => npIsClose rtol atol p.1 p.2

/-- Numpy allclose on equal-length lists of 3-vectors. -/
def vecListClose (rtol atol : ℚ) (a b : List Vec3) : Bool :=
  a.length == b.length &&
    (a.zip b).all fun p => Vec3.close rtol atol p.1 p.2

/-- One entry of the per_atom record array of geometry.py: atomic number
(uint8), position and force rows.  A force of none models the NaN-filled
row used by the source for absent forces. -/
structure Atom where
  number : ℕ
  position : Vec3
  force : Option Vec3
  deriving DecidableEq, Repr

/-- The Geometry class of geometry.py: per-atom data, a 3x3 cell, and the
optional labels carried alongside.  The order field is the free-form
order_* key-value map. -/
structure Geometry where
  per_atom : List Atom
  cell : Mat3
  energy : Option ℚ := none
  stress : Option Mat3 := none
  delta : Option ℚ := none
  phase : Option String := none
  logprob : Option (List ℚ) := none
  stdout : Option String := none
  identifier : Option ℤ := none
  order : List (String × ℚ) := []
  deriving DecidableEq, Repr

/-- Geometry.periodic: np.any(self.cell). -/
def Geometry.periodic (g : Geometry) : Bool :=
  g.cell.anyNonzero

/-- Geometry.__eq__ of geometry.py: compares length and periodicity first,
then numpy-allclose on atomic numbers, positions and cell.  All labels
(energy, forces, stress, phase, logprob, identifier, order, stdout) are
ignored. -/
def Geometry.eq (g h : Geometry) : Bool :=
  if g.per_atom.length == h.per_atom.length && (g.periodic == h.periodic) then
    listClose defaultRtol defaultAtol
        (g.per_atom.map fun a => (a.number : ℚ))
        (h.per_atom.map fun a => (a.number : ℚ)) &&
      vecListClose defaultRtol defaultAtol
        (g.per_atom.map Atom.position) (h.per_atom.map Atom.position) &&
      Mat3.close defaultRtol defaultAtol g.cell h.cell
  else false

/-- Geometry.from_data of geometry.py: builds a geometry from parallel
number and position arrays, with NaN forces and a copy of the cell
(zeros when no cell is given).  The source requires the arrays to have
equal length; the embedding zips them. -/
def Geometry.from_data (numbers : List ℕ) (positions : List Vec3)
    (cell : Option Mat3) : Geometry :=
  { per_atom := (numbers.zip positions).map fun p => ⟨p.1, p.2, none⟩
    cell := cell.getD Mat3.zero }

/-- new_nullstate of geometry.py: a single dummy atom with number 0 at the
origin and no cell. -/
def new_nullstate : Geometry :=
  Geometry.from_data [0] [Vec3.zero] none

/-- The universal dummy state NullState of geometry.py. -/
def NullState : Geometry := new_nullstate

/-- The chemical_symbols list of ase.data: 119 entries, index = atomic
number, with the dummy symbol X at index 0. -/
def chemical_symbols : List String :=
  ["X", "H", "He",
   "Li", "Be", "B", "C", "N", "O", "F", "Ne",
   "Na", "Mg", "Al", "Si", "P", "S", "Cl", "Ar",
   "K", "Ca", "Sc", "Ti", "V", "Cr", "Mn", "Fe", "Co", "Ni", "Cu", "Zn",
   "Ga", "Ge", "As", "Se", "Br", "Kr",
   "Rb", "Sr", "Y", "Zr", "Nb", "Mo", "Tc", "Ru", "Rh", "Pd", "Ag", "Cd",
   "In", "Sn", "Sb", "Te", "I", "Xe",
   "Cs", "Ba", "La", "Ce", "Pr", "Nd", "Pm", "Sm", "Eu", "Gd", "Tb", "Dy",
   "Ho", "Er", "Tm", "Yb", "Lu",
   "Hf", "Ta", "W", "Re", "Os", "Ir", "Pt", "Au", "Hg", "Tl", "Pb", "Bi",
   "Po", "At", "Rn",
   "Fr", "Ra", "Ac", "Th", "Pa", "U", "Np", "Pu", "Am", "Cm", "Bk",
   "Cf", "Es", "Fm", "Md", "No", "Lr",
   "Rf", "Db", "Sg", "Bh", "Hs", "Mt", "Ds", "Rg", "Cn", "Nh", "Fl", "Mc",
   "Lv", "Ts", "Og"]

/-- First index of a symbol in a list of symbols, none when absent. -/
def symIndexAux (sym : String) : List String → Option ℕ
  | [] => none
  | x :: xs => if x == sym then some 0 else (symIndexAux sym xs).map (· + 1)

/-- Model of chemical_symbols.index(sym) of Python: the first index holding
the symbol, or none where the source raises ValueError. -/
def symIndex (sym : String) : Option ℕ :=
  symIndexAux sym chemical_symbols

/-- Model of ase.data.atomic_numbers lookup (symbol to atomic number); the
source raises KeyError for unknown symbols. -/
def atomic_numbers (sym : String) : Option ℕ :=
  symIndex sym

/-- Rounding of one float to 8 decimal digits, the information-losing part
of the percent-16.8f format used by Geometry.to_string for positions and
forces. -/
def roundTo8 (q : ℚ) : ℚ :=
  (round (q * 100000000) : ℚ) / 100000000

/-- Componentwise 8-decimal rounding of a vector row. -/
def Vec3.round8 (v : Vec3) : Vec3 :=
  ⟨roundTo8 v.x, roundTo8 v.y, roundTo8 v.z⟩

/-- The nine Lattice numbers written by Geometry.to_string, namely
np.reshape(cell.T, 9, order="F"), which reads cell.T column by column and
therefore lists the rows of cell in order. -/
def latticeNine (c : Mat3) : List ℚ :=
  [c.r0.x, c.r0.y, c.r0.z, c.r1.x, c.r1.y, c.r1.z, c.r2.x, c.r2.y, c.r2.z]

/-- The ase extended-xyz comment parser returns a nine-number Lattice value
reshaped to (3, 3) in Fortran (column-major) order; entry (i, j) is number
i + 3j.  Missing entries default to 0 (the source would raise instead; a
well-formed record always has nine entries). -/
def nineToMat (l : List ℚ) : Mat3 :=
  ⟨⟨l.getD 0 0, l.getD 3 0, l.getD 6 0⟩,
   ⟨l.getD 1 0, l.getD 4 0, l.getD 7 0⟩,
   ⟨l.getD 2 0, l.getD 5 0, l.getD 8 0⟩⟩

/-- One atom line of an extended-xyz record: element symbol, three
position fields, optionally three force fields.  Numeric fields carry the
value printed by the percent-16.8f format. -/
structure AtomLine where
  sym : String
  pos : Vec3
  frc : Option Vec3
  deriving DecidableEq, Repr

/-- An extended-xyz record as produced by Geometry.to_string: the atom
count line, the comment line split into its key-value constituents
(Lattice, pbc flag, the Properties declaration, and the scalar labels,
which the comment line serializes exactly via str), and the atom lines. -/
structure XyzRecord where
  natoms : ℕ
  lattice : Option (List ℚ)
  pbcT : Bool
  props_forces : Bool
  energy : Option ℚ
  stress : Option Mat3
  delta : Option ℚ
  phase : Option String
  stdoutK : Option String
  logprob : Option (List ℚ)
  identifier : Option ℤ
  order : List (String × ℚ)
  rows : List AtomLine
  deriving DecidableEq, Repr

/-- Geometry.to_string of geometry.py, returning the structured record it
serializes.  Forces are written only when no per-atom force row is NaN.
The symbol lookup chemical_symbols[number] raises IndexError for numbers
outside the table, modelled by none. -/
def Geometry.to_string (g : Geometry) : Option XyzRecord :=
  let write_forces : Bool := g.per_atom.all fun a => a.force.isSome
  (g.per_atom.mapM fun a =>
      (chemical_symbols.get? a.number).map fun s =>
        AtomLine.mk s a.position.round8
          (if write_forces then a.force.map Vec3.round8 else none)).map
    fun rows =>
      { natoms := g.per_atom.length
        lattice := if g.periodic then some (latticeNine g.cell) else none
        pbcT := g.periodic
        props_forces := write_forces
        energy := g.energy
        stress := g.stress
        delta := g.delta
        phase := g.phase
        stdoutK := g.stdout
        logprob := g.logprob
        identifier := g.identifier
        order := g.order
        rows := rows }

/-- Geometry.from_string of geometry.py on a structured record: asserts
that the number of atom lines matches the declared count, resolves each
symbol through chemical_symbols.index (ValueError, i.e. none, when
absent), reads forces when the line carries them, and takes the cell as
the transposed Lattice matrix, defaulting to zeros. -/
def Geometry.from_string (x : XyzRecord) : Option Geometry :=
  if x.rows.length = x.natoms then
    (x.rows.mapM fun r =>
        (symIndex r.sym).map fun n => Atom.mk n r.pos r.frc).map
      fun per =>
        { per_atom := per
          cell := (x.lattice.map fun l => (nineToMat l).transpose).getD Mat3.zero
          energy := x.energy
          stress := x.stress
          delta := x.delta
          phase := x.phase
          logprob := x.logprob
          stdout := x.stdoutK
          identifier := x.identifier
          order := x.order }
  else none

/-- Geometry.copy of geometry.py: serialize and parse back. -/
def Geometry.copy (g : Geometry) : Option Geometry :=
  g.to_string.bind Geometry.from_string

/-- Python str.split() with no argument: split on runs of whitespace and
drop empty pieces. -/
def pysplit (s : String) : List String :=
  (s.split fun c => c.isWhitespace).filter fun t => t ≠ ""

/-- Consume leading decimal digits of a character list, accumulating their
value and count. -/
def takeDigits : ℕ → ℕ → List Char → ℕ × ℕ × List Char
  | acc, k, [] => (acc, k, [])
  | acc, k, c :: cs =>
    if c.isDigit then takeDigits (acc * 10 + (c.toNat - 48)) (k + 1) cs
    else (acc, k, c :: cs)

/-- Model of the Python float() conversion on the tokens occurring in CP2K
output: an optional sign, digits with an optional decimal point (at least
one digit overall), and an optional exponent; anything else, such as the
stars CP2K prints for exploded positions, yields none where the source
raises ValueError. -/
def parseDec (s : String) : Option ℚ :=
  let step1 : ℚ × List Char :=
    match s.toList with
    | '+' :: r => (1, r)
    | '-' :: r => (-1, r)
    | r => (1, r)
  let ipart := takeDigits 0 0 step1.2
  let fpart :=
    match ipart.2.2 with
    | '.' :: r => takeDigits 0 0 r
    | r => (0, 0, r)
  if ipart.2.1 + fpart.2.1 = 0 then none
  else
    let mant : ℚ := step1.1 * ((ipart.1 : ℚ) + (fpart.1 : ℚ) / 10 ^ fpart.2.1)
    match fpart.2.2 with
    | [] => some mant
    | 'e' :: r =>
      let es : ℤ × List Char :=
        match r with
        | '+' :: t => (1, t)
        | '-' :: t => (-1, t)
        | t => (1, t)
      let epart := takeDigits 0 0 es.2
      if 1 ≤ epart.2.1 ∧ epart.2.2 = [] then
        some (mant * 10 ^ (es.1 * epart.1))
      else none
    | 'E' :: r =>
      let es : ℤ × List Char :=
        match r with
        | '+' :: t => (1, t)
        | '-' :: t => (-1, t)
        | t => (1, t)
      let epart := takeDigits 0 0 es.2
      if 1 ≤ epart.2.1 ∧ epart.2.2 = [] then
        some (mant * 10 ^ (es.1 * epart.1))
      else none
    | _ => none

/-- Hartree in eV, the ase.units.Ha double (CODATA 2014). -/
def Ha : ℚ := 27211386024367243 / 1000000000000000

/-- Bohr in Angstrom, the ase.units.Bohr double (CODATA 2014). -/
def Bohr : ℚ := 5291772105638411 / 10000000000000000

/-- The header line introducing the coordinate echo in CP2K output. -/
def coordHeader : String := "MODULE QUICKSTEP: ATOMIC COORDINATES IN ANGSTROM"

/-- The line carrying the total energy in CP2K output. -/
def energyHeader : String := "ENERGY| Total FORCE_EVAL ( QS ) energy [a.u.]"

/-- The header line introducing the force block in CP2K output. -/
def forcesHeader : String := "ATOMIC FORCES in [a.u.]"

/-- Scan all lines for a header and return the natoms lines that start
three lines after the last match, as parse_cp2k_output does for the
coordinate and force blocks (the loop overwrites on every match, so the
last match wins). -/
def findBlock (header : String) (all_lines : List String) (natoms : ℕ) :
    Option (List String) :=
  (List.range all_lines.length).foldl
    (fun acc i =>
      if ((all_lines.getD i "").trim.startsWith header) then
        some ((all_lines.drop (i + 3)).take natoms)
      else acc)
    none

/-- Read tokens first, first+1, first+2 of a coordinate or force line as
floats, as the numpy assignment of a sliced token list does; none when a
token is missing or malformed (ValueError). -/
def parseVecAt (first : ℕ) (line : String) : Option Vec3 :=
  let toks := pysplit line
  match parseDec (toks.getD first ""), parseDec (toks.getD (first + 1) ""),
      parseDec (toks.getD (first + 2) "") with
  | some a, some b, some c =>
    if first + 3 ≤ toks.length then some ⟨a, b, c⟩ else none
  | _, _, _ => none

/-- Scan for the last energy line, converting the last token of every
matching line eagerly (a malformed token raises ValueError, uncaught in
the source). -/
def scanEnergy : Option ℚ → List String → Except String (Option ℚ)
  | acc, [] => .ok acc
  | acc, l :: ls =>
    if l.trim.startsWith energyHeader then
      match ((pysplit l).getLast?.getD "" |> parseDec) with
      | some v => scanEnergy (some (v * Ha)) ls
      | none => .error "ValueError: could not convert string to float"
    else scanEnergy acc ls

/-- parse_cp2k_output of reference/_cp2k.py.  The returned value is ok
NullState for the failure modes the source converts to the sentinel
(missing coordinate block, malformed coordinate floats, missing energy
line, missing force block); it is error for the AssertionError raised by
the bare assert statements (truncated blocks and the 0.01 Angstrom
position cross-check) and for uncaught ValueError in the energy and force
conversions. -/
def parse_cp2k_output (cp2k_output_str : String) (properties : List String)
    (geometry : Geometry) : Except String Geometry := do
  let natoms := geometry.per_atom.length
  let all_lines := cp2k_output_str.splitOn "\n"
  match findBlock coordHeader all_lines natoms with
  | none => .ok NullState
  | some lines => do
    if lines.length ≠ natoms then
      .error "AssertionError: truncated coordinate block"
    else
      match lines.mapM (parseVecAt 4) with
      | none => .ok NullState
      | some positions => do
        if ¬(vecListClose defaultRtol (1 / 100)
            (geometry.per_atom.map Atom.position) positions) then
          .error "AssertionError: positions deviate beyond 0.01 Angstrom"
        else do
          let energyOpt ← scanEnergy none all_lines
          match energyOpt with
          | none => .ok NullState
          | some energy => do
            let g1 : Geometry :=
              { geometry with energy := some energy
                              per_atom := geometry.per_atom.map fun a =>
                                { a with force := none } }
            if properties.contains "forces" then
              match findBlock forcesHeader all_lines natoms with
              | none => .ok NullState
              | some flines =>
                if flines.length ≠ natoms then
                  .error "AssertionError: truncated force block"
                else
                  match flines.mapM (parseVecAt 3) with
                  | none => .error "ValueError: could not convert string to float"
                  | some forces =>
                    let scaled := forces.map fun v =>
                      ⟨v.x * (Ha / Bohr), v.y * (Ha / Bohr), v.z * (Ha / Bohr)⟩
                    .ok { g1 with
                            stress := none
                            per_atom := (g1.per_atom.zip scaled).map fun p =>
                              { p.1 with force := some p.2 } }
            else
              .ok { g1 with stress := none }

/-- cp2k_singlepoint_post of reference/_cp2k.py: short-circuit on a null
input, otherwise parse the raw output file; a non-null parse gets the
stdout pointer attached, a null parse is replaced by a fresh nullstate
carrying the stdout pointer.  Exceptions raised by the parse propagate. -/
def cp2k_singlepoint_post (geometry : Geometry) (properties : List String)
    (stdoutPath : String) (content : String) : Except String Geometry :=
  if Geometry.eq geometry NullState then
    .ok ((Geometry.copy NullState).getD NullState)
  else do
    let g ← parse_cp2k_output content properties geometry
    if ¬(Geometry.eq g NullState) then
      .ok { g with stdout := some stdoutPath }
    else
      .ok { new_nullstate with stdout := some stdoutPath }

/-- CP2K.get_single_atom_references of reference/_cp2k.py: the enumerated
multiplicities for a neutral atom with the given atomic number.  The
source pairs every multiplicity with a modified copy of the CP2K input
(UKS, multiplicity, charge 0, CG minimizer); those modifications do not
affect which multiplicities are enumerated, so the embedding returns the
multiplicity list.  The loop runs mult over range(1, 16) and skips when
(number even and mult even) and when mult - 1 > number. -/
def get_single_atom_references (number : ℕ) : List ℕ :=
  (List.range' 1 15).filter fun mult =>
    if number % 2 = 0 ∧ mult % 2 = 0 then false
    else if mult - 1 > number then false
    else true

/-- Enumeration following the words of the spec, for comparison with
get_single_atom_references: candidate multiplicities m in 1..15 that
respect the electron-count parity of the neutral element (the electron
count equals the atomic number, and a multiplicity 2S+1 must have parity
opposite to it) and satisfy m - 1 <= atomic number. -/
def spec_multiplicities (number : ℕ) : List ℕ :=
  (List.range' 1 15).filter fun mult =>
    decide (mult % 2 ≠ number % 2) && decide (mult - 1 ≤ number)

/-- The failure score of reference/reference.py: _extract_energy returns
1e10 for the null sentinel. -/
def failEnergy : ℚ := 10000000000

/-- _extract_energy of reference/reference.py: 1e10 for the null
sentinel, otherwise the stored energy (Python None when absent). -/
def extract_energy (state : Geometry) : Option ℚ :=
  if Geometry.eq state NullState then some failEnergy else state.energy

/-- Python min over a list; ValueError on an empty list. -/
def pymin : List ℚ → Except String ℚ
  | [] => .error "ValueError: min of empty sequence"
  | e :: es => .ok (es.foldl min e)

/-- get_minimum_energy of reference/reference.py: the minimum of the
per-multiplicity energies, with an AssertionError when that minimum is
the 1e10 failure score. -/
def get_minimum_energy (energies : List ℚ) : Except String ℚ := do
  let e ← pymin energies
  if e = failEnergy then
    .error "AssertionError: atomic energy calculation failed"
  else .ok e

/-- Reference.compute_atomic_energy of reference/reference.py, with the
external single-point evaluations abstracted into an oracle from the
multiplicity to the evaluated geometry: extract the per-multiplicity
energies and take the guarded minimum.  An evaluated state that is not
null but carries no energy makes Python min compare None, raising
TypeError, modelled by the error branch. -/
def compute_atomic_energy (number : ℕ) (oracle : ℕ → Geometry) :
    Except String ℚ :=
  let refs := get_single_atom_references number
  match (refs.map oracle).mapM extract_energy with
  | none => .error "TypeError: NoneType is not comparable"
  | some energies => get_minimum_energy energies

/-- A value stored in the info dictionary of an ase Atoms object: scalar
floats, 3x3 arrays, strings, or the booleans psiflow uses for the
reference_* bookkeeping keys. -/
inductive InfoVal where
  | num (q : ℚ)
  | mat (m : Mat3)
  | str (s : String)
  | flag (b : Bool)
  deriving DecidableEq, Repr

/-- The FlowAtoms wrapper of data.py around ase Atoms: atomic numbers,
positions, an optional cell, the optional forces array, and the info
dictionary of labels (kept as an ordered association list, mirroring the
insertion-ordered Python dict). -/
structure FlowAtoms where
  numbers : List ℕ
  positions : List Vec3
  cellA : Option Mat3
  forces : Option (List Vec3)
  info : List (String × InfoVal)
  deriving DecidableEq, Repr

/-- Dictionary lookup in an info association list. -/
def infoLookup (info : List (String × InfoVal)) (k : String) : Option InfoVal :=
  (info.find? fun kv => kv.1 == k).map fun kv => kv.2

/-- Dictionary key test. -/
def infoHasKey (info : List (String × InfoVal)) (k : String) : Bool :=
  (infoLookup info k).isSome

/-- Dictionary assignment: replace the value when the key is present,
append it otherwise (Python dicts keep insertion order). -/
def infoSet (info : List (String × InfoVal)) (k : String) (v : InfoVal) :
    List (String × InfoVal) :=
  if infoHasKey info k then
    info.map fun kv => if kv.1 == k then (k, v) else kv
  else info ++ [(k, v)]

/-- FlowAtoms.reset of data.py: keep only the lattice, properties and pbc
info entries (case-insensitive), set the three reference_* bookkeeping
keys to False, and drop the forces array. -/
def FlowAtoms.reset (a : FlowAtoms) : FlowAtoms :=
  let retained := a.info.filter fun kv =>
    kv.1.toLower == "lattice" || kv.1.toLower == "properties" ||
      kv.1.toLower == "pbc"
  { a with
      info := retained ++
        [("reference_stdout", InfoVal.flag false),
         ("reference_stderr", InfoVal.flag false),
         ("reference_status", InfoVal.flag false)]
      forces := none }

/-- get_index_element_mask of utils.py: start from an all-true mask, and
logical-and it with the membership mask of the requested elements and
with the indicator mask of the requested atom indices.  Unknown element
symbols raise KeyError in the source, modelled by none.  The source
accepts negative (wrapping) indices and raises on out-of-range ones; the
embedding uses natural indices, and List.set ignores an out-of-range
index. -/
def get_index_element_mask (numbers : List ℕ) (elements : Option (List String))
    (atom_indices : Option (List ℕ)) : Option (List Bool) :=
  let mask0 := List.replicate numbers.length true
  let mask1opt : Option (List Bool) :=
    match elements with
    | none => some mask0
    | some els =>
      match els.mapM atomic_numbers with
      | none => none
      | some numbers_to_include =>
        some ((mask0.zip (numbers.map fun n =>
          numbers_to_include.contains n)).map fun p => p.1 && p.2)
  match mask1opt with
  | none => none
  | some mask1 =>
    match atom_indices with
    | none => some mask1
    | some idxs =>
      let mask_indices := idxs.foldl (fun m i => m.set i true)
          (List.replicate numbers.length false)
      some ((mask1.zip mask_indices).map fun p => p.1 && p.2)

/-- One iteration of the element loop of insert_formation_energy of
data.py, on the state (reference, atoms still unaccounted, info dict):
skip elements with no occurrence, otherwise record the atomic_energy_*
label (asserting it absent), add count times energy to the reference and
discount the accounted atoms. -/
def insertStep (atoms : FlowAtoms) (st : ℚ × ℤ × List (String × InfoVal))
    (t : ℕ × String × ℚ) : Except String (ℚ × ℤ × List (String × InfoVal)) :=
  let cnt := atoms.numbers.count t.1
  if cnt = 0 then .ok st
  else
    let label := "atomic_energy_" ++ t.2.1
    if infoHasKey st.2.2 label then
      .error "AssertionError: atomic energy label already present"
    else
      .ok (st.1 + (cnt : ℚ) * t.2.2, st.2.1 - (cnt : ℤ),
        infoSet st.2.2 label (InfoVal.num t.2.2))

/-- Tail of the per-frame body of insert_formation_energy of data.py:
assert that every atom was accounted for (the remaining count is zero),
read the energy label (KeyError when absent) and insert
formation_energy = energy - reference. -/
def insertFinish (atoms : FlowAtoms)
    (res : ℚ × ℤ × List (String × InfoVal)) : Except String FlowAtoms :=
  if res.2.1 ≠ 0 then
    .error "AssertionError: not all atoms accounted for"
  else
    match infoLookup res.2.2 "energy" with
    | some (InfoVal.num e) =>
      .ok { atoms with
              info := infoSet res.2.2 "formation_energy"
                (InfoVal.num (e - res.1)) }
    | _ => .error "KeyError: energy"

/-- Per-frame body of insert_formation_energy of data.py: check that no
formation_energy label is present, fold the element loop over the
supplied (atomic number, element, energy) triples, then finish with the
accounting assert and the formation_energy insertion. -/
def insertOne (triples : List (ℕ × String × ℚ)) (atoms : FlowAtoms) :
    Except String FlowAtoms :=
  if infoHasKey atoms.info "formation_energy" then
    .error "AssertionError: formation_energy label already present in data"
  else
    match triples.foldlM (insertStep atoms)
        (0, (atoms.numbers.length : ℤ), atoms.info) with
    | .error m => .error m
    | .ok res => insertFinish atoms res

/-- insert_formation_energy of data.py: resolve the element symbols to
atomic numbers (KeyError on unknown symbols), then process every frame.
The assert on the number of inputs is len(inputs) == len(elements) + 1,
i.e. one supplied energy per element. -/
def insert_formation_energy (elements : List String) (energies : List ℚ)
    (data : List FlowAtoms) : Except String (List FlowAtoms) :=
  if energies.length ≠ elements.length then
    .error "AssertionError: inputs do not match elements"
  else
    match elements.mapM atomic_numbers with
    | none => .error "KeyError: unknown element symbol"
    | some numbers =>
      data.mapM (insertOne (numbers.zip (elements.zip energies)))

/-- The SimulationOutput fields consumed by Walker.update of
sampling/walker.py: the final state and the integer run status. -/
structure SimulationOutput where
  state : FlowAtoms
  status : ℤ
  deriving DecidableEq, Repr

/-- The Walker dataclass of sampling/walker.py.  The hamiltonian field is
kept as an abstract identity; it plays no role in the properties proved
below.  A coupling is likewise an abstract identity (Python compares
coupling objects by identity). -/
structure Walker where
  start : FlowAtoms
  state : FlowAtoms
  hamiltonian : ℕ
  temperature : Option ℚ := some 300
  pressure : Option ℚ := none
  nbeads : ℕ := 1
  periodic : Bool := true
  timestep : ℚ := 1 / 2
  coupling : Option ℕ := none
  deriving DecidableEq, Repr

/-- Walker.pimd: nbeads differs from 1. -/
def Walker.pimd (w : Walker) : Bool :=
  decide (w.nbeads ≠ 1)

/-- Walker.is_similar of sampling/walker.py: same definedness of
temperature and pressure, same PIMD class, same coupling, same
periodicity, same timestep. -/
def Walker.is_similar (w0 w1 : Walker) : Bool :=
  (w0.temperature.isNone == w1.temperature.isNone) &&
    (w0.pressure.isNone == w1.pressure.isNone) &&
    (w0.pimd == w1.pimd) &&
    (w0.coupling == w1.coupling) &&
    (w0.periodic == w1.periodic) &&
    (w0.timestep == w1.timestep)

/-- _update_walker of sampling/walker.py: keep the propagated state for
status 0 or 1 (success or timeout), revert to start otherwise. -/
def _update_walker (state : FlowAtoms) (status : ℤ) (start : FlowAtoms) :
    FlowAtoms :=
  if status = 0 ∨ status = 1 then state else start

/-- Walker.update of sampling/walker.py: route the output state and
status through _update_walker against the stored start. -/
def Walker.update (w : Walker) (output : SimulationOutput) : Walker :=
  { w with state := _update_walker output.state output.status w.start }

/-- One pass of the inner loop of partition for a single walker: append
the walker to every stored group whose representative (first element) is
similar, and report whether any group matched.  The source loop does not
break, so a walker similar to several representatives would be appended
to each of them. -/
def addSimilar (w : Walker) : List (List Walker) → List (List Walker) × Bool
  | [] => ([], false)
  | p :: ps =>
    let r := addSimilar w ps
    if Walker.is_similar w (p.headD w) then ((p ++ [w]) :: r.1, true)
    else (p :: r.1, r.2)

/-- One step of partition: run the inner matching loop, and open a fresh
singleton group when no existing group matched. -/
def partitionStep (parts : List (List Walker)) (w : Walker) :
    List (List Walker) :=
  let r := addSimilar w parts
  if r.2 then r.1 else r.1 ++ [[w]]

/-- partition of sampling/walker.py: fold every walker through the
matching loop, building groups of pairwise-similar walkers. -/
def partition (walkers : List Walker) : List (List Walker) :=
  walkers.foldl partitionStep []

/-- The backing store for Dataset objects: a growing sequence of xyz
files, addressed by index.  context.new_file always supplies a fresh
name, modelled by appending. -/
structure Store where
  files : List (List FlowAtoms)
  deriving DecidableEq, Repr

/-- Create a fresh backing file holding the given frames and return its
reference. -/
def Store.alloc (σ : Store) (content : List FlowAtoms) : ℕ × Store :=
  (σ.files.length, ⟨σ.files ++ [content]⟩)

/-- Read the frames behind a reference (reading a nonexistent file is
empty; the source would raise instead, and the theorems below restrict to
valid references). -/
def Store.read (σ : Store) (r : ℕ) : List FlowAtoms :=
  (σ.files.get? r).getD []

/-- The Dataset class of data.py, reduced to its data_future backing
reference. -/
structure Dataset where
  data_future : ℕ
  deriving DecidableEq, Repr

/-- Dataset.__init__ with an existing data future: copy_data_future into
a fresh file and wrap its reference. -/
def Dataset.ofFuture (σ : Store) (r : ℕ) : Dataset × Store :=
  let a := σ.alloc (σ.read r)
  (⟨a.1⟩, a.2)

/-- Dataset.__init__ with a list of atoms: save_dataset into a fresh
file. -/
def Dataset.ofList (σ : Store) (atoms : List FlowAtoms) : Dataset × Store :=
  let a := σ.alloc atoms
  (⟨a.1⟩, a.2)

/-- read_dataset of data.py with a list of indices: the selected frames in
index order (an out-of-range index raises in the source; the theorems
below restrict to valid indices). -/
def read_dataset (σ : Store) (d : Dataset) (indices : List ℕ) :
    List FlowAtoms :=
  indices.filterMap fun i => (σ.read d.data_future).get? i

/-- Dataset.get with indices: app_read_dataset writes the selection to a
fresh file, and the Dataset constructor copies it into another fresh
file. -/
def Dataset.getIndices (σ : Store) (d : Dataset) (indices : List ℕ) :
    Dataset × Store :=
  let a := σ.alloc (read_dataset σ d indices)
  Dataset.ofFuture a.2 a.1

/-- Dataset.__add__ of data.py: join both backing files into a fresh file
(first operand first) and wrap it in a new Dataset. -/
def Dataset.add (σ : Store) (d1 d2 : Dataset) : Dataset × Store :=
  let a := σ.alloc (σ.read d1.data_future ++ σ.read d2.data_future)
  Dataset.ofFuture a.2 a.1

/-- Dataset.append of data.py: join both backing files into a fresh file
and reassign the data_future of the receiver to it (no constructor copy
here). -/
def Dataset.append (σ : Store) (d1 d2 : Dataset) : Dataset × Store :=
  let a := σ.alloc (σ.read d1.data_future ++ σ.read d2.data_future)
  (⟨a.1⟩, a.2)

/-- Dataset.reset of data.py: reset every frame into a fresh file and
wrap it in a new Dataset. -/
def Dataset.reset (σ : Store) (d : Dataset) : Dataset × Store :=
  let a := σ.alloc ((σ.read d.data_future).map FlowAtoms.reset)
  Dataset.ofFuture a.2 a.1

/-- Dataset.shuffle of data.py draws a random permutation of the indices
and delegates to get; the permutation is passed explicitly here. -/
def Dataset.shuffleWith (σ : Store) (d : Dataset) (perm : List ℕ) :
    Dataset × Store :=
  Dataset.getIndices σ d perm

/-- get_info_keys of data.py: the labels present in every frame, seeded
from the keys of the first frame (IndexError on an empty dataset). -/
def get_info_keys : List FlowAtoms → Except String (List String)
  | [] => .error "IndexError: empty dataset"
  | a :: rest =>
    .ok ((a :: rest).foldl
      (fun labels atoms => labels.filter fun l => infoHasKey atoms.info l)
      (a.info.map Prod.fst))

/-- Dataset.set_formation_energy of data.py: assert that the
formation_energy label is not already a common label, run
insert_formation_energy on all frames into a fresh file, and wrap it in a
new Dataset. -/
def Dataset.set_formation_energy (σ : Store) (d : Dataset)
    (elements : List String) (energies : List ℚ) :
    Except String (Dataset × Store) := do
  let keys ← get_info_keys (σ.read d.data_future)
  if keys.contains "formation_energy" then
    .error "AssertionError: formation_energy already present"
  else do
    let data2 ← insert_formation_energy elements energies
      (σ.read d.data_future)
    let a := σ.alloc data2
    .ok (Dataset.ofFuture a.2 a.1)

/-- Pascal of ase.units in the eV/Angstrom unit system (CODATA 2014): one
J/m3 expressed in eV/Angstrom3, the exact ratio behind the stored
double. -/
def Pascal : ℚ := 1 / 160217662080

/-- The nine entries of a 3x3 array in row order, modelling reshape to
(1, 9). -/
def matComponents (m : Mat3) : List ℚ :=
  [m.r0.x, m.r0.y, m.r0.z, m.r1.x, m.r1.y, m.r1.z, m.r2.x, m.r2.y, m.r2.z]

/-- The zeroed reference frame built by compute_metrics of data.py in the
intrinsic branch: energy set to 0 when present, stress zeroed when
present, forces zeroed when present. -/
def zeroReference (a : FlowAtoms) : FlowAtoms :=
  let i1 := if infoHasKey a.info "energy" then
    infoSet a.info "energy" (InfoVal.num 0) else a.info
  let i2 := if infoHasKey i1 "stress" then
    infoSet i1 "stress" (InfoVal.mat Mat3.zero) else i1
  { a with info := i2, forces := a.forces.map fun l => l.map fun _ => Vec3.zero }

/-- The per-pair structural asserts of compute_metrics of data.py:
allclose atomic numbers, allclose positions, and allclose cells when a
cell is present. -/
def checkPairs : List (FlowAtoms × FlowAtoms) → Except String Unit
  | [] => .ok ()
  | p :: ps => do
    if ¬(listClose defaultRtol defaultAtol
        (p.1.numbers.map fun n => (n : ℚ)) (p.2.numbers.map fun n => (n : ℚ))) then
      .error "AssertionError: numbers differ"
    else if ¬(vecListClose defaultRtol defaultAtol p.1.positions p.2.positions) then
      .error "AssertionError: positions differ"
    else
      match p.1.cellA with
      | none => checkPairs ps
      | some c0 =>
        match p.2.cellA with
        | none => .error "TypeError: cell comparison with None"
        | some c1 =>
          if ¬(Mat3.close defaultRtol defaultAtol c0 c1) then
            .error "AssertionError: cells differ"
          else checkPairs ps

/-- The per-property arrays of compute_metrics of data.py, already scaled
to the reporting units: per-atom energy in meV (a single entry), masked
force rows in meV/Angstrom, or the nine stress components in MPa. -/
def propArrays (prop : String) (a0 a1 : FlowAtoms) (mask : List Bool) :
    Except String (List (List ℚ) × List (List ℚ)) :=
  if prop == "energy" then
    match infoLookup a0.info "energy", infoLookup a1.info "energy" with
    | some (InfoVal.num e0), some (InfoVal.num e1) =>
      .ok ([[e0 / (a0.numbers.length : ℚ) * 1000]],
           [[e1 / (a1.numbers.length : ℚ) * 1000]])
    | _, _ => .error "TypeError: energy entry is not a float"
  else if prop == "forces" then
    let f0 := ((a0.forces.getD []).zip mask).filterMap fun q =>
      if q.2 then some q.1 else none
    let f1 := ((a1.forces.getD []).zip mask).filterMap fun q =>
      if q.2 then some q.1 else none
    .ok (f0.map fun v => [v.x * 1000, v.y * 1000, v.z * 1000],
         f1.map fun v => [v.x * 1000, v.y * 1000, v.z * 1000])
  else if prop == "stress" then
    match infoLookup a0.info "stress", infoLookup a1.info "stress" with
    | some (InfoVal.mat s0), some (InfoVal.mat s1) =>
      .ok ([(matComponents s0).map fun q => q / (1000000 * Pascal)],
           [(matComponents s1).map fun q => q / (1000000 * Pascal)])
    | _, _ => .error "TypeError: stress entry is not an array"
  else .error "ValueError: property unknown"

/-- The metric reduction of compute_metrics of data.py on a pair of
equally shaped arrays: mae is the mean absolute difference, rmse the root
mean square difference, max the largest euclidean row norm of the
difference. -/
noncomputable def applyMetric (metric : String) (arr0 arr1 : List (List ℚ)) :
    Except String ℝ :=
  let diffs : List (List ℚ) :=
    (arr0.zip arr1).map fun p => (p.1.zip p.2).map fun q => q.1 - q.2
  let flat := diffs.flatten
  if metric == "mae" then
    .ok ((((flat.map fun d => |d|).sum / (flat.length : ℚ)) : ℚ) : ℝ)
  else if metric == "rmse" then
    .ok (Real.sqrt ((((flat.map fun d => d * d).sum / (flat.length : ℚ)) : ℚ) : ℝ))
  else if metric == "max" then
    match diffs.map (fun row => Real.sqrt (((row.map fun d => d * d).sum : ℚ) : ℝ)) with
    | [] => .error "ValueError: max of an empty sequence"
    | n :: ns => .ok (ns.foldl max n)
  else .error "ValueError: metric unknown"

/-- The mask compute_metrics builds for one frame: the element/index mask
when a filter is requested, the all-true mask otherwise (getD collapses
the KeyError case, which the theorems below exclude). -/
def maskFor (atom_indices : Option (List ℕ)) (elements : Option (List String))
    (a0 : FlowAtoms) : List Bool :=
  if atom_indices.isSome || elements.isSome then
    (get_index_element_mask a0.numbers elements atom_indices).getD []
  else List.replicate a0.numbers.length true

/-- One row of the error table of compute_metrics: the metric value of
every requested property for one retained frame pair. -/
noncomputable def rowFor (metric : String) (properties : List String)
    (mask : List Bool) (p : FlowAtoms × FlowAtoms) : Except String (List ℝ) :=
  properties.mapM fun prop => do
    let arrs ← propArrays prop p.1 p.2 mask
    applyMetric metric arrs.1 arrs.2

/-- The mask construction of the main loop of compute_metrics of
data.py for one frame: when an element or index filter is requested,
assert that only force errors are being computed and build the
element/index mask (KeyError for unknown symbols); otherwise use the
all-true mask. -/
def maskCheck (atom_indices : Option (List ℕ))
    (elements : Option (List String)) (properties : List String)
    (a0 : FlowAtoms) : Except String (List Bool) :=
  if atom_indices.isSome || elements.isSome then
    if properties.contains "energy" then
      .error "AssertionError: energy not allowed with a mask"
    else if properties.contains "stress" then
      .error "AssertionError: stress not allowed with a mask"
    else if ¬(properties.contains "forces") then
      .error "AssertionError: a mask only makes sense for forces"
    else
      match get_index_element_mask a0.numbers elements atom_indices with
      | none => .error "KeyError: unknown element symbol"
      | some m => .ok m
  else .ok (List.replicate a0.numbers.length true)

/-- The per-frame label presence asserts of compute_metrics of data.py. -/
def presenceCheck (properties : List String) (p : FlowAtoms × FlowAtoms) :
    Except String Unit :=
  if properties.contains "energy" &&
      !(infoHasKey p.1.info "energy" && infoHasKey p.2.info "energy") then
    .error "AssertionError: energy missing"
  else if properties.contains "forces" &&
      !(p.1.forces.isSome && p.2.forces.isSome) then
    .error "AssertionError: forces missing"
  else if properties.contains "stress" &&
      !(infoHasKey p.1.info "stress" && infoHasKey p.2.info "stress") then
    .error "AssertionError: stress missing"
  else .ok ()

/-- The main loop of compute_metrics of data.py over the paired frames:
build the mask, skip frames whose mask selects no atoms, assert presence
of the requested labels, and emit one row of metric values per retained
frame. -/
noncomputable def metricRows (atom_indices : Option (List ℕ))
    (elements : Option (List String)) (metric : String)
    (properties : List String) :
    List (FlowAtoms × FlowAtoms) → Except String (List (List ℝ))
  | [] => .ok []
  | p :: ps =>
    match maskCheck atom_indices elements properties p.1 with
    | .error m => .error m
    | .ok mask =>
      if ¬(mask.any id) then
        metricRows atom_indices elements metric properties ps
      else
        match presenceCheck properties p with
        | .error m => .error m
        | .ok _ =>
          match rowFor metric properties mask p with
          | .error m => .error m
          | .ok row =>
            match metricRows atom_indices elements metric properties ps with
            | .error m => .error m
            | .ok rest => .ok (row :: rest)

/-- compute_metrics of data.py: build the comparison data (a zeroed copy
in the intrinsic branch), run the structural asserts, compute the
per-frame rows, and fail when no frame contributed a row. -/
noncomputable def compute_metrics (intrinsic : Bool)
    (atom_indices : Option (List ℕ)) (elements : Option (List String))
    (metric : String) (properties : List String)
    (data_0 : List FlowAtoms) (input_1 : Option (List FlowAtoms)) :
    Except String (List (List ℝ)) :=
  let data_1res : Except String (List FlowAtoms) :=
    match input_1 with
    | none =>
      if ¬intrinsic then .error "AssertionError: intrinsic required"
      else .ok (data_0.map zeroReference)
    | some d => .ok d
  match data_1res with
  | .error m => .error m
  | .ok data_1 =>
    if data_0.length ≠ data_1.length then
      .error "AssertionError: lengths differ"
    else
      match checkPairs (data_0.zip data_1) with
      | .error m => .error m
      | .ok _ =>
        match metricRows atom_indices elements metric properties
            (data_0.zip data_1) with
        | .error m => .error m
        | .ok rows =>
          if rows.isEmpty then
            .error "AssertionError: no states in dataset contained atoms of interest"
          else .ok rows

/-- The similarity key of a walker: is_similar compares exactly these six
components, so similarity is equality of keys. -/
def wkey (w : Walker) : Bool × Bool × Bool × Option ℕ × Bool × ℚ :=
  (w.temperature.isNone, w.pressure.isNone, w.pimd, w.coupling, w.periodic,
    w.timestep)

/-- The invariant maintained by the partition loop: every stored group is
nonempty, every group is homogeneous in the similarity key, and distinct
groups carry distinct keys. -/
def PartsInv (parts : List (List Walker)) : Prop :=
  (∀ p ∈ parts, p ≠ []) ∧
  (∀ p ∈ parts, ∀ a ∈ p, ∀ b ∈ p, wkey a = wkey b) ∧
  parts.Pairwise fun p q => ∀ a ∈ p, ∀ b ∈ q, wkey a ≠ wkey b

/-- The per-frame reference energy of insert_formation_energy: the sum
over the supplied (atomic number, energy) pairs of occurrence count times
energy. -/
def referenceSum (pairs : List (ℕ × ℚ)) (atoms : FlowAtoms) : ℚ :=
  (pairs.map fun p => ((atoms.numbers.count p.1 : ℚ) * p.2)).sum

/-- A concrete frame with two hydrogen atoms and total energy 10, the
formation-energy scenario of the spec. -/
def atomsH2 : FlowAtoms :=
  ⟨[1, 1], [⟨0, 0, 0⟩, ⟨1, 0, 0⟩], none, none, [("energy", InfoVal.num 10)]⟩

/-- A concrete single-hydrogen frame used by witnesses. -/
def faA : FlowAtoms :=
  ⟨[1], [⟨0, 0, 0⟩], none, some [⟨0, 0, 0⟩], []⟩

/-- A second concrete frame, distinct from faA. -/
def faB : FlowAtoms :=
  ⟨[1], [⟨1, 0, 0⟩], none, none, []⟩

/-- A concrete walker used by witnesses. -/
def walkerA : Walker :=
  ⟨faA, faA, 0, some 300, none, 1, true, 1 / 2, none⟩

/-- A concrete walker similar to walkerA (same key, different
hamiltonian). -/
def walkerB : Walker :=
  ⟨faB, faB, 1, some 600, none, 1, true, 1 / 2, none⟩

/-- A concrete walker not similar to walkerA (pressure defined). -/
def walkerC : Walker :=
  ⟨faA, faA, 2, some 300, some 1, 1, true, 1 / 2, none⟩

/-- A multiplicity oracle for the atomic-energy witness: multiplicity 2
converges to a hydrogen ground state with energy -13, every other
multiplicity fails to the null sentinel. -/
def oracleW : ℕ → Geometry :=
  fun m =>
    if m = 2 then
      { per_atom := [⟨1, Vec3.zero, none⟩], cell := Mat3.zero,
        energy := some (-13) }
    else NullState

/-- A multiplicity oracle where every evaluation fails. -/
def oracleFail : ℕ → Geometry :=
  fun _ => NullState

/-- A concrete two-file store used by witnesses. -/
def storeW : Store := ⟨[[faA], [faB]]⟩

/-- The frame produced by insert_formation_energy on atomsH2 with the
reference H = 3: reference 2 x 3 = 6, formation energy 10 - 6 = 4. -/
def atomsH2result : FlowAtoms :=
  ⟨[1, 1], [⟨0, 0, 0⟩, ⟨1, 0, 0⟩], none, none,
    [("energy", InfoVal.num 10), ("atomic_energy_H", InfoVal.num 3),
     ("formation_energy", InfoVal.num 4)]⟩

/-- A frame that already carries a formation_energy label. -/
def atomsH2fe : FlowAtoms :=
  ⟨[1, 1], [⟨0, 0, 0⟩, ⟨1, 0, 0⟩], none, none,
    [("energy", InfoVal.num 10), ("formation_energy", InfoVal.num 0)]⟩

/-- The masked force rows compute_metrics extracts from a list of force
vectors: keep the rows the mask selects and scale to meV per Angstrom. -/
def maskedRows (l : List Vec3) (mask : List Bool) : List (List ℚ) :=
  (((l.zip mask).filterMap fun q => if q.2 then some q.1 else none).map
    fun v => [v.x * 1000, v.y * 1000, v.z * 1000])

/-- A non-null periodic single-hydrogen geometry submitted to CP2K in the
post-processing counterexample. -/
def geomC2 : Geometry :=
  { per_atom := [⟨1, Vec3.zero, none⟩],
    cell := ⟨⟨10, 0, 0⟩, ⟨0, 10, 0⟩, ⟨0, 0, 10⟩⟩ }

/-- A CP2K output whose echoed coordinate (1, 0, 0) deviates from the
submitted position (0, 0, 0) by a full Angstrom, far beyond the 0.01
tolerance of the position cross-check. -/
def contentC2 : String :=
  "MODULE QUICKSTEP: ATOMIC COORDINATES IN ANGSTROM\nfiller\nfiller\n1 1 H 1.0 1.00000000 0.00000000 0.00000000"

/-- A reference frame paired with faA in the metrics witness: same atom
and position, forces (1, 0, 0). -/
def faC : FlowAtoms :=
  ⟨[1], [⟨0, 0, 0⟩], none, some [⟨1, 0, 0⟩], []⟩


lemma npIsClose_self (a : ℚ) : npIsClose defaultRtol defaultAtol a a = true := by
  simp only [npIsClose, defaultRtol, defaultAtol, sub_self, abs_zero,
    decide_eq_true_eq]
  positivity

lemma vec3_close_self (v : Vec3) : Vec3.close defaultRtol defaultAtol v v = true := by
  simp [Vec3.close, npIsClose_self]

lemma mat3_close_self (m : Mat3) : Mat3.close defaultRtol defaultAtol m m = true := by
  simp [Mat3.close, vec3_close_self]

lemma listClose_self (l : List ℚ) : listClose defaultRtol defaultAtol l l = true := by
  induction l with
  | nil => rfl
  | cons x xs ih =>
    simp only [listClose, beq_self_eq_true, Bool.true_and, List.zip_cons_cons,
      List.all_cons, npIsClose_self] at ih ⊢
    simpa using ih

lemma vecListClose_self (l : List Vec3) :
    vecListClose defaultRtol defaultAtol l l = true := by
  induction l with
  | nil => rfl
  | cons x xs ih =>
    simp only [vecListClose, beq_self_eq_true, Bool.true_and, List.zip_cons_cons,
      List.all_cons, vec3_close_self] at ih ⊢
    simpa using ih

/-- C10: Geometry structural equality ignores all labels: two geometries
with identical atomic numbers, positions and cell (hence identical
periodicity) compare equal through Geometry.__eq__, whatever their
energy, forces, stress, phase, logprob, identifier or order entries. -/
theorem c10_label_free_equality (g h : Geometry)
    (hn : g.per_atom.map Atom.number = h.per_atom.map Atom.number)
    (hp : g.per_atom.map Atom.position = h.per_atom.map Atom.position)
    (hc : g.cell = h.cell) :
    Geometry.eq g h = true := by
  have hlen : g.per_atom.length = h.per_atom.length := by
    have := congrArg List.length hn
    simpa using this
  have hper : g.periodic = h.periodic := by
    simp [Geometry.periodic, hc]
  have hnum : (g.per_atom.map fun a => (a.number : ℚ)) =
      h.per_atom.map fun a => (a.number : ℚ) := by
    have h2 := congrArg (List.map fun n : ℕ => (n : ℚ)) hn
    simpa only [List.map_map, Function.comp] using h2
  rw [Geometry.eq, if_pos]
  · rw [hnum, hp, hc]
    simp [listClose_self, vecListClose_self, mat3_close_self]
  · simp [hlen, hper]

/-- Witness for C10 at concrete inputs: two single-atom geometries with
identical structure but different energy, phase, force and identifier
labels compare equal. -/
theorem c10_witness :
    Geometry.eq
      { per_atom := [⟨1, ⟨1, 2, 3⟩, none⟩], cell := Mat3.zero }
      { per_atom := [⟨1, ⟨1, 2, 3⟩, some ⟨4, 5, 6⟩⟩], cell := Mat3.zero,
        energy := some 7, phase := some "A", identifier := some 3 } = true :=
  c10_label_free_equality _ _ (by with_unfolding_all rfl)
    (by with_unfolding_all rfl) (by with_unfolding_all rfl)

lemma npIsClose_zero_false (q : ℚ) (h : 1 / 100000000 < |q|) :
    npIsClose defaultRtol defaultAtol q 0 = false := by
  simp only [npIsClose, defaultRtol, defaultAtol, sub_zero, abs_zero, mul_zero,
    add_zero, decide_eq_false_iff_not, not_le]
  linarith

/-- C1 (amended): a single-atom geometry fails to compare equal to
NullState as soon as its atomic number is nonzero, or some position
coordinate exceeds the allclose tolerance 1e-8 in absolute value, or it
is periodic; and NullState compares equal to a fresh new_nullstate().
(The claim as frozen asks for inequality for all nonzero positions; the
allclose tolerance refutes that, see the counterexample.) -/
theorem c1_null_sentinel (g : Geometry) (a : Atom) (hg : g.per_atom = [a])
    (h : a.number ≠ 0 ∨ 1 / 100000000 < |a.position.x| ∨
      1 / 100000000 < |a.position.y| ∨ 1 / 100000000 < |a.position.z| ∨
      g.periodic = true) :
    Geometry.eq g NullState = false ∧
      Geometry.eq NullState new_nullstate = true := by
  refine ⟨?_, by with_unfolding_all rfl⟩
  have hnullper : NullState.periodic = false := by with_unfolding_all rfl
  have hnull1 : NullState.per_atom.map (fun a => (a.number : ℚ)) = [(0 : ℚ)] := by
    with_unfolding_all rfl
  have hnull2 : NullState.per_atom.map Atom.position = [Vec3.zero] := by
    with_unfolding_all rfl
  by_cases hper : g.periodic = true
  · rw [Geometry.eq, if_neg]
    simp [hper, hnullper]
  · have hper' : g.periodic = false := by
      revert hper
      cases g.periodic <;> simp
    rw [Geometry.eq]
    split
    case neg.isFalse => rfl
    case neg.isTrue hcond =>
      rcases h with h | h | h | h | h
      · have h1 : (1 : ℚ) ≤ (a.number : ℚ) := by
          exact_mod_cast Nat.one_le_iff_ne_zero.mpr h
        have hx : npIsClose defaultRtol defaultAtol (a.number : ℚ) 0 = false := by
          apply npIsClose_zero_false
          rw [abs_of_nonneg (by positivity)]
          calc (1 : ℚ) / 100000000 < 1 := by norm_num
            _ ≤ (a.number : ℚ) := h1
        have hA : listClose defaultRtol defaultAtol
            (g.per_atom.map fun a => (a.number : ℚ))
            (NullState.per_atom.map fun a => (a.number : ℚ)) = false := by
          rw [hg, hnull1]
          simp [listClose, hx]
        rw [hA]
        simp
      · have hx : npIsClose defaultRtol defaultAtol a.position.x 0 = false :=
          npIsClose_zero_false _ h
        have hB : vecListClose defaultRtol defaultAtol
            (g.per_atom.map Atom.position)
            (NullState.per_atom.map Atom.position) = false := by
          rw [hg, hnull2]
          simp [vecListClose, Vec3.close, Vec3.zero, hx]
        rw [hB]
        simp
      · have hx : npIsClose defaultRtol defaultAtol a.position.y 0 = false :=
          npIsClose_zero_false _ h
        have hB : vecListClose defaultRtol defaultAtol
            (g.per_atom.map Atom.position)
            (NullState.per_atom.map Atom.position) = false := by
          rw [hg, hnull2]
          simp [vecListClose, Vec3.close, Vec3.zero, hx]
        rw [hB]
        simp
      · have hx : npIsClose defaultRtol defaultAtol a.position.z 0 = false :=
          npIsClose_zero_false _ h
        have hB : vecListClose defaultRtol defaultAtol
            (g.per_atom.map Atom.position)
            (NullState.per_atom.map Atom.position) = false := by
          rw [hg, hnull2]
          simp [vecListClose, Vec3.close, Vec3.zero, hx]
        rw [hB]
        simp
      · simp [hper'] at h

/-- Counterexample for C1 as frozen: a single-atom geometry with number 0
and the nonzero position (1e-9, 0, 0) compares equal to NullState, because
Geometry.__eq__ uses numpy allclose with atol 1e-8. -/
theorem c1_counterexample :
    Geometry.eq (Geometry.from_data [0] [⟨1 / 1000000000, 0, 0⟩] none)
        NullState = true ∧
      (Geometry.from_data [0] [⟨1 / 1000000000, 0, 0⟩] none).per_atom.map
          Atom.position ≠ [Vec3.zero] := by
  with_unfolding_all decide

/-- Witness for C1 at a concrete input: a single hydrogen atom at the
origin differs from NullState, and NullState equals new_nullstate(). -/
theorem c1_witness :
    Geometry.eq (Geometry.from_data [1] [Vec3.zero] none) NullState = false ∧
      Geometry.eq NullState new_nullstate = true :=
  c1_null_sentinel _ ⟨1, Vec3.zero, none⟩ (by with_unfolding_all rfl)
    (Or.inl (by decide))

/-- C6: Walker.update keeps the output state exactly for status 0 or 1
(success or benign timeout) and reverts the state to start for every
other status, leaving start itself untouched. -/
theorem c6_update_policy (w : Walker) (output : SimulationOutput) :
    ((output.status = 0 ∨ output.status = 1) →
        (w.update output).state = output.state) ∧
      (¬(output.status = 0 ∨ output.status = 1) →
        (w.update output).state = w.start) ∧
      (w.update output).start = w.start := by
  refine ⟨fun h => ?_, fun h => ?_, rfl⟩
  · simp [Walker.update, _update_walker, if_pos h]
  · simp [Walker.update, _update_walker, if_neg h]

/-- Witness for C6: a timeout (status 1) keeps the propagated state, a
hard failure (status 3) reverts to start. -/
theorem c6_witness :
    (Walker.update walkerA ⟨faB, 1⟩).state = faB ∧
      (Walker.update walkerA ⟨faB, 3⟩).state = walkerA.start :=
  ⟨(c6_update_policy walkerA ⟨faB, 1⟩).1 (Or.inr rfl),
    (c6_update_policy walkerA ⟨faB, 3⟩).2.1 (by decide)⟩

lemma mapM_option_of_forall {α β : Type} (f : α → Option β) (g : α → β) :
    ∀ l : List α, (∀ a ∈ l, f a = some (g a)) → l.mapM f = some (l.map g) := by
  intro l
  induction l with
  | nil => intro _; rfl
  | cons x xs ih =>
    intro h
    rw [List.mapM_cons, h x (List.mem_cons_self x xs),
      ih fun a ha => h a (List.mem_cons_of_mem x ha)]
    rfl

lemma foldl_min_mem (es : List ℚ) : ∀ e : ℚ, es.foldl min e ∈ e :: es := by
  induction es with
  | nil => intro e; simp
  | cons x xs ih =>
    intro e
    have h := ih (min e x)
    rcases List.mem_cons.mp h with h1 | h1
    · rcases min_choice e x with h2 | h2 <;> rw [List.foldl_cons, h1, h2] <;> simp
    · simp [List.foldl_cons, List.mem_cons.mpr (Or.inr (List.mem_cons_of_mem x h1))]

lemma foldl_min_le (es : List ℚ) : ∀ e : ℚ, ∀ y ∈ e :: es, es.foldl min e ≤ y := by
  induction es with
  | nil =>
    intro e y hy
    simp at hy
    simp [hy]
  | cons x xs ih =>
    intro e y hy
    rw [List.foldl_cons]
    rcases List.mem_cons.mp hy with h1 | h1
    · calc xs.foldl min (min e x) ≤ min e x :=
          ih (min e x) (min e x) (List.mem_cons_self _ _)
        _ ≤ e := min_le_left _ _
        _ = y := h1.symm
    · rcases List.mem_cons.mp h1 with h2 | h2
      · calc xs.foldl min (min e x) ≤ min e x :=
            ih (min e x) (min e x) (List.mem_cons_self _ _)
          _ ≤ x := min_le_right _ _
          _ = y := h2.symm
      · exact ih (min e x) y (List.mem_cons_of_mem _ h2)

lemma pymin_ok_mem {l : List ℚ} {e : ℚ} (h : pymin l = .ok e) : e ∈ l := by
  cases l with
  | nil => cases h
  | cons x xs =>
    simp only [pymin, Except.ok.injEq] at h
    rw [← h]
    exact foldl_min_mem xs x

lemma pymin_ok_le {l : List ℚ} {e : ℚ} (h : pymin l = .ok e) :
    ∀ y ∈ l, e ≤ y := by
  cases l with
  | nil => cases h
  | cons x xs =>
    simp only [pymin, Except.ok.injEq] at h
    rw [← h]
    exact foldl_min_le xs x

lemma pymin_ne_nil {l : List ℚ} (h : l ≠ []) : ∃ e, pymin l = .ok e := by
  cases l with
  | nil => exact absurd rfl h
  | cons x xs => exact ⟨xs.foldl min x, rfl⟩


lemma get_minimum_energy_eq (l : List ℚ) (e : ℚ) (h : pymin l = .ok e) :
    get_minimum_energy l =
      if e = failEnergy then
        .error "AssertionError: atomic energy calculation failed"
      else .ok e := by
  unfold get_minimum_energy
  rw [h]
  rfl

lemma mem_gsar (number mult : ℕ) :
    mult ∈ get_single_atom_references number ↔
      1 ≤ mult ∧ mult ≤ 15 ∧ mult - 1 ≤ number ∧
        (number % 2 = 0 → mult % 2 = 1) := by
  simp only [get_single_atom_references, List.mem_filter, List.mem_range'_1]
  constructor
  · rintro ⟨⟨h1, h2⟩, hb⟩
    by_cases hpar : number % 2 = 0 ∧ mult % 2 = 0
    · simp [hpar] at hb
    · by_cases hgt : mult - 1 > number
      · simp [hpar, hgt] at hb
      · exact ⟨h1, by omega, by omega, by omega⟩
  · rintro ⟨h1, h2, h3, h4⟩
    have hpar : ¬(number % 2 = 0 ∧ mult % 2 = 0) := by omega
    have hgt : ¬(mult - 1 > number) := by omega
    refine ⟨⟨h1, by omega⟩, ?_⟩
    simp [hpar, hgt]

/-- C3 (amended): get_single_atom_references enumerates the candidate
multiplicities m in 1..15 with m - 1 <= atomic number, excluding even m
only when the atomic number is even (for odd atomic numbers both parities
are enumerated; for even atomic numbers the enumeration coincides with
the parity-respecting one of the spec).  compute_atomic_energy evaluates
every candidate, scores a failed (null) evaluation as 1e10, raises an
AssertionError instead of returning the sentinel when every candidate
fails, and otherwise returns the minimum successful energy. -/
theorem c3_multiplicities :
    (∀ number mult, mult ∈ get_single_atom_references number ↔
        1 ≤ mult ∧ mult ≤ 15 ∧ mult - 1 ≤ number ∧
          (number % 2 = 0 → mult % 2 = 1)) ∧
      (∀ number, number % 2 = 0 →
        get_single_atom_references number = spec_multiplicities number) ∧
      (∀ number oracle,
        (∀ m ∈ get_single_atom_references number,
            Geometry.eq (oracle m) NullState = true) →
          ∃ msg, compute_atomic_energy number oracle = .error msg) ∧
      (∀ number oracle,
        (∀ m ∈ get_single_atom_references number,
            Geometry.eq (oracle m) NullState = false →
              ∃ q, (oracle m).energy = some q ∧ q < failEnergy) →
        (∃ m ∈ get_single_atom_references number,
            Geometry.eq (oracle m) NullState = false) →
        ∃ e, compute_atomic_energy number oracle = .ok e ∧
          (∃ m ∈ get_single_atom_references number,
            Geometry.eq (oracle m) NullState = false ∧
              (oracle m).energy = some e) ∧
          (∀ m ∈ get_single_atom_references number,
            Geometry.eq (oracle m) NullState = false →
              ∀ q, (oracle m).energy = some q → e ≤ q)) := by
  have hone : ∀ number, 1 ∈ get_single_atom_references number := by
    intro number
    rw [mem_gsar]
    exact ⟨le_refl 1, by omega, by omega, fun _ => rfl⟩
  refine ⟨mem_gsar, ?_, ?_, ?_⟩
  · intro number hnum
    apply List.filter_congr
    intro m _
    by_cases h2 : m % 2 = 0
    · simp [hnum, h2, spec_multiplicities]
    · have h2' : m % 2 = 1 := by omega
      by_cases h3 : m - 1 > number
      · simp [hnum, h2, h2', h3, spec_multiplicities]
        omega
      · simp [hnum, h2, h2', h3, spec_multiplicities]
        omega
  · intro number oracle hall
    have hmap : ((get_single_atom_references number).map oracle).mapM
        extract_energy =
        some (((get_single_atom_references number).map oracle).map
          fun _ => failEnergy) := by
      apply mapM_option_of_forall
      intro s hs
      obtain ⟨m, hm, rfl⟩ := List.mem_map.mp hs
      simp [extract_energy, hall m hm]
    rw [compute_atomic_energy, hmap]
    have hne : ((get_single_atom_references number).map oracle).map
        (fun _ => failEnergy) ≠ [] := by
      simpa using List.ne_nil_of_mem (hone number)
    obtain ⟨e, he⟩ := pymin_ne_nil hne
    have hmem := pymin_ok_mem he
    have hefail : e = failEnergy := by
      rcases List.mem_map.mp hmem with ⟨_, _, h⟩
      exact h.symm
    show ∃ msg, get_minimum_energy (((get_single_atom_references number).map
      oracle).map fun _ => failEnergy) = .error msg
    rw [get_minimum_energy_eq _ _ he]
    simp [hefail]
  · intro number oracle hsucc hex
    obtain ⟨m0, hm0, hnn0⟩ := hex
    set refs := get_single_atom_references number with hrefs
    set f : ℕ → ℚ := fun m => (extract_energy (oracle m)).getD 0 with hf
    have hval : ∀ m ∈ refs, extract_energy (oracle m) = some (f m) := by
      intro m hm
      by_cases hn : Geometry.eq (oracle m) NullState = true
      · simp [extract_energy, hn, hf]
      · have hn' : Geometry.eq (oracle m) NullState = false := by
          revert hn
          cases Geometry.eq (oracle m) NullState <;> simp
        obtain ⟨q, hq, _⟩ := hsucc m hm hn'
        simp [extract_energy, hn', hq, hf]
    have hmap : (refs.map oracle).mapM extract_energy =
        some (refs.map f) := by
      have h9 := mapM_option_of_forall extract_energy
        (fun s => (extract_energy s).getD 0) (refs.map oracle) ?_
      · rw [List.map_map] at h9
        exact h9
      · intro s hs
        obtain ⟨m, hm, rfl⟩ := List.mem_map.mp hs
        rw [hval m hm]
    have hne : refs.map f ≠ [] := by
      simpa using List.ne_nil_of_mem (hone number)
    obtain ⟨e, he⟩ := pymin_ne_nil hne
    have hmem := pymin_ok_mem he
    have hle := pymin_ok_le he
    have hm0mem : f m0 ∈ refs.map f := List.mem_map_of_mem f hm0
    obtain ⟨q0, hq0, hq0lt⟩ := hsucc m0 hm0 hnn0
    have hfm0 : f m0 = q0 := by
      simp [hf, extract_energy, hnn0, hq0]
    have helt : e < failEnergy := by
      calc e ≤ f m0 := hle (f m0) hm0mem
        _ = q0 := hfm0
        _ < failEnergy := hq0lt
    refine ⟨e, ?_, ?_, ?_⟩
    · rw [compute_atomic_energy, hmap]
      show get_minimum_energy (refs.map f) = Except.ok e
      rw [get_minimum_energy_eq _ _ he]
      simp [ne_of_lt helt]
    · obtain ⟨m, hm, hfm⟩ := List.mem_map.mp hmem
      have hnn : Geometry.eq (oracle m) NullState = false := by
        by_cases hn : Geometry.eq (oracle m) NullState = true
        · exfalso
          have hfail : f m = failEnergy := by
            simp [hf, extract_energy, hn]
          rw [hfm] at hfail
          exact absurd hfail (ne_of_lt helt)
        · revert hn
          cases Geometry.eq (oracle m) NullState <;> simp
      obtain ⟨q, hq, _⟩ := hsucc m hm hnn
      have hfq : f m = q := by
        simp [hf, extract_energy, hnn, hq]
      refine ⟨m, hm, hnn, ?_⟩
      rw [hq, ← hfq, hfm]
    · intro m hm hnn q hq
      have hfq : f m = q := by
        simp [hf, extract_energy, hnn, hq]
      have hle2 := hle (f m) (List.mem_map_of_mem f hm)
      rw [hfq] at hle2
      exact hle2

/-- Counterexample for C3 as frozen: for hydrogen (odd atomic number 1)
the source enumerates multiplicities [1, 2], including the
parity-violating singlet m = 1, while the parity-respecting enumeration
of the spec is [2]. -/
theorem c3_counterexample :
    get_single_atom_references 1 = [1, 2] ∧ spec_multiplicities 1 = [2] ∧
      get_single_atom_references 1 ≠ spec_multiplicities 1 := by
  with_unfolding_all decide

/-- Witness for C3 at concrete inputs: multiplicity 3 is enumerated for
carbon, the carbon enumeration matches the parity-respecting one, an
all-failing oracle raises, and a hydrogen oracle succeeding at
multiplicity 2 returns an energy. -/
theorem c3_witness :
    3 ∈ get_single_atom_references 6 ∧
      get_single_atom_references 6 = spec_multiplicities 6 ∧
      (compute_atomic_energy 6 oracleFail).isOk = false ∧
      (compute_atomic_energy 1 oracleW).isOk = true := by
  refine ⟨?_, ?_, ?_, ?_⟩
  · exact (c3_multiplicities.1 6 3).mpr (by omega)
  · exact c3_multiplicities.2.1 6 rfl
  · obtain ⟨msg, hmsg⟩ := c3_multiplicities.2.2.1 6 oracleFail
      (fun m _ => by with_unfolding_all rfl)
    rw [hmsg]
    rfl
  · have hrefs : get_single_atom_references 1 = [1, 2] := by
      with_unfolding_all rfl
    have h1 : ∀ m ∈ get_single_atom_references 1,
        Geometry.eq (oracleW m) NullState = false →
          ∃ q, (oracleW m).energy = some q ∧ q < failEnergy := by
      intro m hm hnn
      rw [hrefs] at hm
      simp at hm
      rcases hm with rfl | rfl
      · exfalso
        have hq : Geometry.eq (oracleW 1) NullState = true := by
          with_unfolding_all rfl
        rw [hq] at hnn
        cases hnn
      · exact ⟨-13, by with_unfolding_all rfl, by norm_num [failEnergy]⟩
    have h2 : ∃ m ∈ get_single_atom_references 1,
        Geometry.eq (oracleW m) NullState = false := by
      refine ⟨2, ?_, ?_⟩
      · rw [hrefs]
        simp
      · with_unfolding_all rfl
    obtain ⟨e, he, _⟩ := c3_multiplicities.2.2.2 1 oracleW h1 h2
    rw [he]
    rfl


lemma eq_false_of_not_eq_true {b : Bool} (h : ¬b = true) : b = false := by
  cases b with
  | false => rfl
  | true => exact absurd rfl h

lemma not_eq_true_of_eq_false {b : Bool} (h : b = false) : ¬b = true := by
  simp [h]

lemma is_similar_iff_key (w0 w1 : Walker) :
    Walker.is_similar w0 w1 = true ↔ wkey w0 = wkey w1 := by
  simp [Walker.is_similar, wkey, Prod.ext_iff, and_assoc]

lemma headD_mem {p : List Walker} (h : p ≠ []) (d : Walker) : p.headD d ∈ p := by
  cases p with
  | nil => exact absurd rfl h
  | cons x xs => simp

lemma addSimilar_eq (w : Walker) (parts : List (List Walker)) :
    addSimilar w parts =
      (parts.map fun p => if Walker.is_similar w (p.headD w) then p ++ [w] else p,
        parts.any fun p => Walker.is_similar w (p.headD w)) := by
  induction parts with
  | nil => rfl
  | cons p ps ih =>
    show (if Walker.is_similar w (p.headD w) then
        ((p ++ [w]) :: (addSimilar w ps).1, true)
      else (p :: (addSimilar w ps).1, (addSimilar w ps).2)) = _
    rw [ih, List.map_cons, List.any_cons]
    by_cases h : Walker.is_similar w (p.headD w) = true
    · rw [if_pos h, if_pos h, h, Bool.true_or]
    · have h2 := eq_false_of_not_eq_true h
      rw [if_neg h, if_neg h, h2, Bool.false_or]

lemma flatten_map_append_perm (w : Walker) :
    ∀ parts : List (List Walker),
      (∀ p ∈ parts, p ≠ []) →
      parts.Pairwise (fun p q => ∀ a ∈ p, ∀ b ∈ q, wkey a ≠ wkey b) →
      (parts.any fun p => Walker.is_similar w (p.headD w)) = true →
      List.Perm
        (parts.map fun p =>
          if Walker.is_similar w (p.headD w) then p ++ [w] else p).flatten
        (parts.flatten ++ [w]) := by
  intro parts
  induction parts with
  | nil => intro _ _ hany; cases hany
  | cons p ps ih =>
    intro hne hpw hany
    by_cases htest : Walker.is_similar w (p.headD w) = true
    · have hnomatch : ∀ q ∈ ps, Walker.is_similar w (q.headD w) = false := by
        intro q hq
        apply eq_false_of_not_eq_true
        intro hq'
        have hkp : wkey w = wkey (p.headD w) := (is_similar_iff_key _ _).mp htest
        have hkq : wkey w = wkey (q.headD w) := (is_similar_iff_key _ _).mp hq'
        have hrel := (List.pairwise_cons.mp hpw).1 q hq
        exact hrel (p.headD w) (headD_mem (hne p (by simp)) w)
          (q.headD w) (headD_mem (hne q (by simp [hq])) w) (hkp.symm.trans hkq)
      have hmapps : (ps.map fun q =>
          if Walker.is_similar w (q.headD w) then q ++ [w] else q) = ps := by
        have h3 : (ps.map fun q =>
            if Walker.is_similar w (q.headD w) then q ++ [w] else q) =
            ps.map id := by
          apply List.map_congr_left
          intro q hq
          rw [if_neg (not_eq_true_of_eq_false (hnomatch q hq))]
          rfl
        rw [h3, List.map_id]
      rw [List.map_cons, if_pos htest, List.flatten_cons, hmapps,
        List.flatten_cons, List.append_assoc, List.append_assoc]
      exact List.Perm.append_left p List.perm_append_comm
    · have htest' := eq_false_of_not_eq_true htest
      have hany' : (ps.any fun q => Walker.is_similar w (q.headD w)) = true := by
        rw [List.any_cons, htest', Bool.false_or] at hany
        exact hany
      have hperm := ih (fun q hq => hne q (by simp [hq]))
        (List.pairwise_cons.mp hpw).2 hany'
      rw [List.map_cons, if_neg htest, List.flatten_cons, List.flatten_cons,
        List.append_assoc]
      exact List.Perm.append_left p hperm

lemma partitionStep_inv (parts : List (List Walker)) (w : Walker)
    (h : PartsInv parts) :
    PartsInv (partitionStep parts w) ∧
      List.Perm (partitionStep parts w).flatten (parts.flatten ++ [w]) := by
  obtain ⟨hne, hhom, hpw⟩ := h
  have hkeyall : ∀ p ∈ parts, Walker.is_similar w (p.headD w) = true →
      ∀ a ∈ p, wkey a = wkey w := by
    intro p hp ht a ha
    have h1 := hhom p hp a ha (p.headD w) (headD_mem (hne p hp) w)
    have h2 : wkey w = wkey (p.headD w) := (is_similar_iff_key _ _).mp ht
    rw [h1, h2]
  have hkeynone : ∀ p ∈ parts, Walker.is_similar w (p.headD w) = false →
      ∀ a ∈ p, wkey a ≠ wkey w := by
    intro p hp ht a ha hcon
    have h1 : wkey (p.headD w) = wkey a :=
      hhom p hp (p.headD w) (headD_mem (hne p hp) w) a ha
    have h2 : wkey w = wkey (p.headD w) := by
      rw [h1, hcon]
    have h3 := (is_similar_iff_key w (p.headD w)).mpr h2
    rw [ht] at h3
    cases h3
  rw [partitionStep, addSimilar_eq]
  by_cases hfound : (parts.any fun p => Walker.is_similar w (p.headD w)) = true
  · rw [if_pos hfound]
    constructor
    · refine ⟨?_, ?_, ?_⟩
      · intro p' hp'
        obtain ⟨p, hp, rfl⟩ := List.mem_map.mp hp'
        by_cases ht : Walker.is_similar w (p.headD w) = true
        · rw [if_pos ht]
          simp
        · rw [if_neg ht]
          exact hne p hp
      · intro p' hp' a ha b hb
        obtain ⟨p, hp, rfl⟩ := List.mem_map.mp hp'
        by_cases ht : Walker.is_similar w (p.headD w) = true
        · rw [if_pos ht] at ha hb
          have hka : wkey a = wkey w := by
            rcases List.mem_append.mp ha with h1 | h1
            · exact hkeyall p hp ht a h1
            · simp at h1
              rw [h1]
          have hkb : wkey b = wkey w := by
            rcases List.mem_append.mp hb with h1 | h1
            · exact hkeyall p hp ht b h1
            · simp at h1
              rw [h1]
          rw [hka, hkb]
        · rw [if_neg ht] at ha hb
          exact hhom p hp a ha b hb
      · rw [List.pairwise_map]
        refine List.Pairwise.imp_of_mem ?_ hpw
        intro p q hp hq hrel
        by_cases htp : Walker.is_similar w (p.headD w) = true
        · have htq : Walker.is_similar w (q.headD w) = false := by
            apply eq_false_of_not_eq_true
            intro htq'
            exact hrel (p.headD w) (headD_mem (hne p hp) w)
              (q.headD w) (headD_mem (hne q hq) w)
              (((is_similar_iff_key _ _).mp htp).symm.trans
                ((is_similar_iff_key _ _).mp htq'))
          rw [if_pos htp, if_neg (not_eq_true_of_eq_false htq)]
          intro a ha b hb
          rcases List.mem_append.mp ha with h1 | h1
          · exact hrel a h1 b hb
          · simp at h1
            rw [h1]
            intro hcon
            exact hkeynone q hq htq b hb hcon.symm
        · have htp' := eq_false_of_not_eq_true htp
          rw [if_neg htp]
          by_cases htq : Walker.is_similar w (q.headD w) = true
          · rw [if_pos htq]
            intro a ha b hb
            rcases List.mem_append.mp hb with h1 | h1
            · exact hrel a ha b h1
            · simp at h1
              rw [h1]
              exact hkeynone p hp htp' a ha
          · rw [if_neg htq]
            exact hrel
    · exact flatten_map_append_perm w parts hne hpw hfound
  · have hfound' := eq_false_of_not_eq_true hfound
    have hnomatch : ∀ p ∈ parts, Walker.is_similar w (p.headD w) = false := by
      intro p hp
      exact eq_false_of_not_eq_true (List.any_eq_false.mp hfound' p hp)
    have hmap : (parts.map fun p =>
        if Walker.is_similar w (p.headD w) then p ++ [w] else p) = parts := by
      have h3 : (parts.map fun p =>
          if Walker.is_similar w (p.headD w) then p ++ [w] else p) =
          parts.map id := by
        apply List.map_congr_left
        intro p hp
        rw [if_neg (not_eq_true_of_eq_false (hnomatch p hp))]
        rfl
      rw [h3, List.map_id]
    rw [if_neg hfound, hmap]
    constructor
    · refine ⟨?_, ?_, ?_⟩
      · intro p hp
        rcases List.mem_append.mp hp with h1 | h1
        · exact hne p h1
        · simp at h1
          rw [h1]
          simp
      · intro p hp a ha b hb
        rcases List.mem_append.mp hp with h1 | h1
        · exact hhom p h1 a ha b hb
        · simp at h1
          subst h1
          simp at ha hb
          rw [ha, hb]
      · rw [List.pairwise_append]
        refine ⟨hpw, by simp, ?_⟩
        intro p hp q hq a ha b hb
        simp at hq
        subst hq
        simp at hb
        rw [hb]
        exact hkeynone p hp (hnomatch p hp) a ha
    · rw [List.flatten_append]
      simp

lemma partition_loop (ws : List Walker) :
    ∀ parts, PartsInv parts →
      PartsInv (ws.foldl partitionStep parts) ∧
        List.Perm (ws.foldl partitionStep parts).flatten (parts.flatten ++ ws) := by
  induction ws with
  | nil =>
    intro parts h
    exact ⟨h, by simp⟩
  | cons w ws ih =>
    intro parts h
    obtain ⟨h1, h2⟩ := partitionStep_inv parts w h
    obtain ⟨h3, h4⟩ := ih (partitionStep parts w) h1
    refine ⟨h3, ?_⟩
    have h5 := h2.append_right ws
    have h6 : (parts.flatten ++ [w]) ++ ws = parts.flatten ++ (w :: ws) := by
      simp
    rw [h6] at h5
    exact h4.trans h5

/-- C4: partition is a true equivalence-class partition under
Walker.is_similar: the concatenation of the output groups is a
permutation of the input (so every walker lands in exactly one group,
counted with multiplicity, even though the inner matching loop does not
break), the group sizes sum to the input length, and any two walkers of
one group are similar. -/
theorem c4_partition_classes (walkers : List Walker) :
    List.Perm (partition walkers).flatten walkers ∧
      ((partition walkers).map List.length).sum = walkers.length ∧
      ∀ p ∈ partition walkers, ∀ a ∈ p, ∀ b ∈ p,
        Walker.is_similar a b = true := by
  have hInv0 : PartsInv [] := ⟨by simp, by simp, List.Pairwise.nil⟩
  obtain ⟨hinv, hperm⟩ := partition_loop walkers [] hInv0
  have hperm' : List.Perm (partition walkers).flatten walkers := by
    simpa [partition] using hperm
  refine ⟨hperm', ?_, ?_⟩
  · rw [← List.length_flatten]
    exact hperm'.length_eq
  · intro p hp a ha b hb
    rw [is_similar_iff_key]
    exact hinv.2.1 p hp a ha b hb

lemma alloc_get? (σ : Store) (c : List FlowAtoms) (r : ℕ)
    (h : r < σ.files.length) :
    (σ.alloc c).2.files.get? r = σ.files.get? r := by
  simp only [Store.alloc]
  exact List.get?_append h

lemma alloc_len (σ : Store) (c : List FlowAtoms) :
    (σ.alloc c).2.files.length = σ.files.length + 1 := by
  simp [Store.alloc]

lemma alloc_read_new (σ : Store) (c : List FlowAtoms) :
    (σ.alloc c).2.read (σ.alloc c).1 = c := by
  simp only [Store.alloc, Store.read]
  rw [List.get?_append_right (le_refl _)]
  simp

lemma alloc_wrap (σ : Store) (c : List FlowAtoms) :
    (∀ r, r < σ.files.length →
      (Dataset.ofFuture (σ.alloc c).2 (σ.alloc c).1).2.files.get? r =
        σ.files.get? r) ∧
    σ.files.length ≤
      (Dataset.ofFuture (σ.alloc c).2 (σ.alloc c).1).1.data_future ∧
    (Dataset.ofFuture (σ.alloc c).2 (σ.alloc c).1).2.read
      (Dataset.ofFuture (σ.alloc c).2 (σ.alloc c).1).1.data_future = c := by
  refine ⟨?_, ?_, ?_⟩
  · intro r hr
    show (((σ.alloc c).2.alloc ((σ.alloc c).2.read
      (σ.alloc c).1)).2.files.get? r) = σ.files.get? r
    rw [alloc_get? _ _ r (by rw [alloc_len]; omega), alloc_get? _ _ r hr]
  · show σ.files.length ≤ ((σ.alloc c).2.alloc ((σ.alloc c).2.read
      (σ.alloc c).1)).1
    show σ.files.length ≤ (σ.alloc c).2.files.length
    rw [alloc_len]
    omega
  · show (((σ.alloc c).2.alloc ((σ.alloc c).2.read (σ.alloc c).1)).2.read
      (((σ.alloc c).2.alloc ((σ.alloc c).2.read (σ.alloc c).1)).1)) = c
    rw [alloc_read_new, alloc_read_new]

lemma except_ok_bind {α β : Type} (a : α) (f : α → Except String β) :
    (Except.ok a >>= f) = f a := rfl

lemma except_error_bind {α β : Type} (m : String) (f : α → Except String β) :
    ((Except.error m : Except String α) >>= f) = Except.error m := rfl

lemma set_formation_ok {σ : Store} {d : Dataset} {elements : List String}
    {energies : List ℚ} {d' : Dataset} {σ' : Store}
    (h : Dataset.set_formation_energy σ d elements energies = .ok (d', σ')) :
    ∃ keys data2, get_info_keys (σ.read d.data_future) = .ok keys ∧
      keys.contains "formation_energy" = false ∧
      insert_formation_energy elements energies (σ.read d.data_future) =
        .ok data2 ∧
      (d', σ') = Dataset.ofFuture (σ.alloc data2).2 (σ.alloc data2).1 := by
  unfold Dataset.set_formation_energy at h
  cases hk : get_info_keys (σ.read d.data_future) with
  | error m =>
    rw [hk, except_error_bind] at h
    cases h
  | ok keys =>
    rw [hk, except_ok_bind] at h
    by_cases hc : keys.contains "formation_energy" = true
    · rw [if_pos hc] at h
      cases h
    · rw [if_neg hc] at h
      cases hi : insert_formation_energy elements energies
          (σ.read d.data_future) with
      | error m =>
        rw [hi, except_error_bind] at h
        cases h
      | ok data2 =>
        rw [hi, except_ok_bind] at h
        cases h
        exact ⟨keys, data2, rfl, eq_false_of_not_eq_true hc, rfl, rfl⟩

/-- C9: the Dataset transformations get (with indices), join via +, reset,
shuffle and set_formation_energy leave every existing backing file
(including the receiver) unchanged and return a Dataset with a fresh
backing reference holding the transformed frames; append also leaves all
existing files unchanged, but hands back the receiver with its reference
reassigned to a fresh file holding the concatenation, first operand
first. -/
theorem c9_store_discipline (σ : Store) (d1 d2 : Dataset)
    (indices perm : List ℕ) (elements : List String) (energies : List ℚ)
    (h1 : d1.data_future < σ.files.length)
    (h2 : d2.data_future < σ.files.length) :
    ((∀ r, r < σ.files.length →
        (Dataset.getIndices σ d1 indices).2.files.get? r = σ.files.get? r) ∧
      σ.files.length ≤ (Dataset.getIndices σ d1 indices).1.data_future ∧
      (Dataset.getIndices σ d1 indices).1.data_future ≠ d1.data_future ∧
      (Dataset.getIndices σ d1 indices).2.read
          (Dataset.getIndices σ d1 indices).1.data_future =
        read_dataset σ d1 indices) ∧
    ((∀ r, r < σ.files.length →
        (Dataset.add σ d1 d2).2.files.get? r = σ.files.get? r) ∧
      σ.files.length ≤ (Dataset.add σ d1 d2).1.data_future ∧
      (Dataset.add σ d1 d2).2.read (Dataset.add σ d1 d2).1.data_future =
        σ.read d1.data_future ++ σ.read d2.data_future) ∧
    ((∀ r, r < σ.files.length →
        (Dataset.reset σ d1).2.files.get? r = σ.files.get? r) ∧
      σ.files.length ≤ (Dataset.reset σ d1).1.data_future ∧
      (Dataset.reset σ d1).2.read (Dataset.reset σ d1).1.data_future =
        (σ.read d1.data_future).map FlowAtoms.reset) ∧
    ((∀ r, r < σ.files.length →
        (Dataset.shuffleWith σ d1 perm).2.files.get? r = σ.files.get? r) ∧
      σ.files.length ≤ (Dataset.shuffleWith σ d1 perm).1.data_future ∧
      (Dataset.shuffleWith σ d1 perm).2.read
          (Dataset.shuffleWith σ d1 perm).1.data_future =
        read_dataset σ d1 perm) ∧
    (∀ d' σ', Dataset.set_formation_energy σ d1 elements energies =
        .ok (d', σ') →
      (∀ r, r < σ.files.length → σ'.files.get? r = σ.files.get? r) ∧
      σ.files.length ≤ d'.data_future ∧
      ∃ data2, insert_formation_energy elements energies
          (σ.read d1.data_future) = .ok data2 ∧
        σ'.read d'.data_future = data2) ∧
    ((∀ r, r < σ.files.length →
        (Dataset.append σ d1 d2).2.files.get? r = σ.files.get? r) ∧
      σ.files.length ≤ (Dataset.append σ d1 d2).1.data_future ∧
      (Dataset.append σ d1 d2).1.data_future ≠ d1.data_future ∧
      (Dataset.append σ d1 d2).2.read
          (Dataset.append σ d1 d2).1.data_future =
        σ.read d1.data_future ++ σ.read d2.data_future) := by
  refine ⟨?_, ?_, ?_, ?_, ?_, ?_⟩
  · obtain ⟨ha, hb, hc⟩ := alloc_wrap σ (read_dataset σ d1 indices)
    have hb' : σ.files.length ≤
        (Dataset.getIndices σ d1 indices).1.data_future := hb
    refine ⟨ha, hb', by omega, hc⟩
  · exact alloc_wrap σ (σ.read d1.data_future ++ σ.read d2.data_future)
  · exact alloc_wrap σ ((σ.read d1.data_future).map FlowAtoms.reset)
  · obtain ⟨ha, hb, hc⟩ := alloc_wrap σ (read_dataset σ d1 perm)
    exact ⟨ha, hb, hc⟩
  · intro d' σ' hok
    obtain ⟨keys, data2, hk, hc, hi, heq⟩ := set_formation_ok hok
    have hd' : d' = (Dataset.ofFuture (σ.alloc data2).2 (σ.alloc data2).1).1 :=
      congrArg Prod.fst heq
    have hσ' : σ' = (Dataset.ofFuture (σ.alloc data2).2 (σ.alloc data2).1).2 :=
      congrArg Prod.snd heq
    obtain ⟨ha, hb, hcc⟩ := alloc_wrap σ data2
    subst hd'
    subst hσ'
    exact ⟨ha, hb, data2, hi, hcc⟩
  · refine ⟨?_, ?_, ?_, ?_⟩
    · intro r hr
      show ((σ.alloc (σ.read d1.data_future ++
        σ.read d2.data_future)).2.files.get? r) = σ.files.get? r
      exact alloc_get? _ _ r hr
    · show σ.files.length ≤ (σ.alloc (σ.read d1.data_future ++
        σ.read d2.data_future)).1
      exact le_refl _
    · show (σ.alloc (σ.read d1.data_future ++
        σ.read d2.data_future)).1 ≠ d1.data_future
      show σ.files.length ≠ d1.data_future
      omega
    · exact alloc_read_new σ _

/-- Witness for C9 on a concrete two-file store: append hands back a
reference holding the concatenation while file 0 is untouched, reset
produces the reset frames under a fresh reference, and get returns a
dataset whose reference differs from the receiver. -/
theorem c9_witness :
    (Dataset.append storeW ⟨0⟩ ⟨1⟩).2.read
        (Dataset.append storeW ⟨0⟩ ⟨1⟩).1.data_future =
      storeW.read 0 ++ storeW.read 1 ∧
    (Dataset.append storeW ⟨0⟩ ⟨1⟩).2.files.get? 0 = storeW.files.get? 0 ∧
    (Dataset.reset storeW ⟨0⟩).2.read
        (Dataset.reset storeW ⟨0⟩).1.data_future =
      (storeW.read 0).map FlowAtoms.reset ∧
    (Dataset.getIndices storeW ⟨0⟩ [0]).1.data_future ≠
      (Dataset.mk 0).data_future := by
  have h1 : (Dataset.mk 0).data_future < storeW.files.length := by
    with_unfolding_all decide
  have h2 : (Dataset.mk 1).data_future < storeW.files.length := by
    with_unfolding_all decide
  have H := c9_store_discipline storeW ⟨0⟩ ⟨1⟩ [0] [0] [] [] h1 h2
  exact ⟨(H.2.2.2.2.2).2.2.2,
    (H.2.2.2.2.2).1 0 (by with_unfolding_all decide),
    (H.2.2.1).2.2, (H.1).2.2.1⟩

lemma take_of_string_append (a b : String) :
    (a ++ b).data.take a.data.length = a.data := by
  have h : (a ++ b).data = a.data ++ b.data := rfl
  rw [h]
  exact List.take_left a.data b.data

lemma atomic_label_ne (e s : String)
    (hs : s.data.take 14 ≠ "atomic_energy_".data) :
    ("atomic_energy_" ++ e) ≠ s := by
  intro h
  apply hs
  rw [← h]
  have h14 : ("atomic_energy_" : String).data.length = 14 := by decide
  rw [← h14]
  exact take_of_string_append "atomic_energy_" e

lemma atomic_label_ne_energy (e : String) :
    ("atomic_energy_" ++ e) ≠ "energy" :=
  atomic_label_ne e "energy" (by decide)

lemma atomic_label_ne_formation (e : String) :
    ("atomic_energy_" ++ e) ≠ "formation_energy" :=
  atomic_label_ne e "formation_energy" (by decide)


lemma infoLookup_cons (kv : String × InfoVal) (info : List (String × InfoVal))
    (k : String) :
    infoLookup (kv :: info) k =
      if kv.1 == k then some kv.2 else infoLookup info k := by
  cases h : (kv.1 == k) with
  | true => simp [infoLookup, List.find?, h]
  | false => simp [infoLookup, List.find?, h]

lemma infoLookup_nil (k : String) : infoLookup [] k = none := rfl

lemma infoLookup_map_set (info : List (String × InfoVal)) (k : String)
    (v : InfoVal) (h : infoHasKey info k = true) :
    infoLookup (info.map fun kv => if kv.1 == k then (k, v) else kv) k =
      some v := by
  induction info with
  | nil => cases h
  | cons kv rest ih =>
    rw [List.map_cons]
    by_cases hk : (kv.1 == k) = true
    · rw [if_pos hk, infoLookup_cons]
      simp
    · rw [if_neg hk, infoLookup_cons, if_neg hk]
      apply ih
      rw [infoHasKey, infoLookup_cons, if_neg hk] at h
      exact h

lemma infoLookup_append_single (info : List (String × InfoVal)) (k : String)
    (v : InfoVal) :
    infoHasKey info k = false →
      infoLookup (info ++ [(k, v)]) k = some v := by
  induction info with
  | nil =>
    intro _
    rw [List.nil_append, infoLookup_cons]
    simp
  | cons kv rest ih =>
    intro h
    rw [infoHasKey, infoLookup_cons] at h
    by_cases hk : (kv.1 == k) = true
    · rw [if_pos hk] at h
      cases h
    · rw [if_neg hk] at h
      rw [List.cons_append, infoLookup_cons, if_neg hk]
      exact ih h

lemma infoLookup_set_self (info : List (String × InfoVal)) (k : String)
    (v : InfoVal) : infoLookup (infoSet info k v) k = some v := by
  rw [infoSet]
  by_cases h : infoHasKey info k = true
  · rw [if_pos h]
    exact infoLookup_map_set info k v h
  · rw [if_neg h]
    exact infoLookup_append_single info k v (eq_false_of_not_eq_true h)

lemma infoLookup_map_set_other (info : List (String × InfoVal))
    (k : String) (v : InfoVal) (k' : String) (h : k ≠ k') :
    infoLookup (info.map fun kv => if kv.1 == k then (k, v) else kv) k' =
      infoLookup info k' := by
  induction info with
  | nil => rfl
  | cons kv rest ih =>
    rw [List.map_cons, infoLookup_cons, infoLookup_cons]
    by_cases h1 : (kv.1 == k) = true
    · have h2 : kv.1 = k := by
        simpa using h1
      have h3 : (kv.1 == k') = false := by
        simp [h2, h]
      rw [if_pos h1]
      rw [show ((k, v).1 == k') = false from by simp [h]]
      rw [h3]
      simp only [Bool.false_eq_true, if_false]
      exact ih
    · rw [if_neg h1]
      exact if_congr Iff.rfl rfl ih

lemma infoLookup_append_single_other (info : List (String × InfoVal))
    (k : String) (v : InfoVal) (k' : String) (h : k ≠ k') :
    infoLookup (info ++ [(k, v)]) k' = infoLookup info k' := by
  induction info with
  | nil =>
    rw [List.nil_append, infoLookup_cons]
    rw [show ((k, v).1 == k') = false from by simp [h]]
    simp only [Bool.false_eq_true, if_false]
  | cons kv rest ih =>
    rw [List.cons_append, infoLookup_cons, infoLookup_cons]
    exact if_congr Iff.rfl rfl ih

lemma infoLookup_set_other (info : List (String × InfoVal)) (k : String)
    (v : InfoVal) (k' : String) (h : k ≠ k') :
    infoLookup (infoSet info k v) k' = infoLookup info k' := by
  rw [infoSet]
  by_cases hk : infoHasKey info k = true
  · rw [if_pos hk]
    exact infoLookup_map_set_other info k v k' h
  · rw [if_neg hk]
    exact infoLookup_append_single_other info k v k' h

lemma mapM_except_ok {α β : Type} (f : α → Except String β) :
    ∀ {l : List α} {l' : List β}, l.mapM f = .ok l' →
      List.Forall₂ (fun a b => f a = .ok b) l l' := by
  intro l
  induction l with
  | nil =>
    intro l' h
    rw [List.mapM_nil] at h
    injection h with h2
    subst h2
    exact List.Forall₂.nil
  | cons x xs ih =>
    intro l' h
    rw [List.mapM_cons] at h
    cases hx : f x with
    | error m =>
      rw [hx, except_error_bind] at h
      cases h
    | ok b =>
      rw [hx, except_ok_bind] at h
      cases hxs : xs.mapM f with
      | error m =>
        rw [hxs, except_error_bind] at h
        cases h
      | ok bs =>
        rw [hxs, except_ok_bind] at h
        injection h with h2
        subst h2
        exact List.Forall₂.cons hx (ih hxs)

lemma mapM_except_not_ok {α β : Type} (f : α → Except String β) :
    ∀ {l : List α}, (∃ x ∈ l, (f x).isOk = false) →
      ((l.mapM f : Except String (List β))).isOk = false := by
  intro l
  induction l with
  | nil =>
    intro h
    obtain ⟨x, hx, _⟩ := h
    cases hx
  | cons y ys ih =>
    intro h
    rw [List.mapM_cons]
    cases hy : f y with
    | error m => rw [except_error_bind]; rfl
    | ok b =>
      rw [except_ok_bind]
      cases hys : ys.mapM f with
      | error m => rw [except_error_bind]; rfl
      | ok bs =>
        obtain ⟨x, hx, hxf⟩ := h
        rcases List.mem_cons.mp hx with rfl | hx2
        · rw [hy] at hxf
          cases hxf
        · have := ih ⟨x, hx2, hxf⟩
          rw [hys] at this
          cases this

lemma mapM_option_forall₂ {α β : Type} (f : α → Option β) :
    ∀ {l : List α} {l' : List β}, l.mapM f = some l' →
      List.Forall₂ (fun a b => f a = some b) l l' := by
  intro l
  induction l with
  | nil =>
    intro l' h
    rw [List.mapM_nil] at h
    injection h with h2
    subst h2
    exact List.Forall₂.nil
  | cons x xs ih =>
    intro l' h
    rw [List.mapM_cons] at h
    cases hx : f x with
    | none => rw [hx] at h; cases h
    | some b =>
      rw [hx] at h
      cases hxs : xs.mapM f with
      | none => rw [hxs] at h; cases h
      | some bs =>
        rw [hxs] at h
        injection h with h2
        subst h2
        exact List.Forall₂.cons hx (ih hxs)

lemma forall₂_exists_left {α β : Type} {R : α → β → Prop} :
    ∀ {l₁ : List α} {l₂ : List β}, List.Forall₂ R l₁ l₂ →
      ∀ b ∈ l₂, ∃ a ∈ l₁, R a b := by
  intro l₁ l₂ h
  induction h with
  | nil => intro b hb; cases hb
  | cons h1 _ ih =>
    intro b hb
    rcases List.mem_cons.mp hb with rfl | hb2
    · exact ⟨_, List.mem_cons_self _ _, h1⟩
    · obtain ⟨a, ha, hr⟩ := ih b hb2
      exact ⟨a, List.mem_cons_of_mem _ ha, hr⟩

lemma symIndexAux_some_prop (s : String) :
    ∀ (l : List String) (i : ℕ), symIndexAux s l = some i →
      ∃ a, l.get? i = some a ∧ a = s := by
  intro l
  induction l with
  | nil =>
    intro i h
    cases h
  | cons x xs ih =>
    intro i h
    rw [symIndexAux] at h
    by_cases hp : (x == s) = true
    · rw [if_pos hp] at h
      injection h with h2
      subst h2
      exact ⟨x, rfl, by simpa using hp⟩
    · rw [if_neg hp] at h
      obtain ⟨j, hj, rfl⟩ := Option.map_eq_some'.mp h
      obtain ⟨a, ha, hpa⟩ := ih j hj
      exact ⟨a, ha, hpa⟩

lemma atomic_numbers_inj {s1 s2 : String} {i : ℕ}
    (h1 : atomic_numbers s1 = some i) (h2 : atomic_numbers s2 = some i) :
    s1 = s2 := by
  obtain ⟨a1, ha1, hp1⟩ := symIndexAux_some_prop s1 chemical_symbols i h1
  obtain ⟨a2, ha2, hp2⟩ := symIndexAux_some_prop s2 chemical_symbols i h2
  have he : a1 = a2 := by
    rw [ha1] at ha2
    exact Option.some.inj ha2
  rw [← hp1, ← hp2]
  exact he

lemma nodup_of_forall₂_atomic :
    ∀ {els : List String} {ns : List ℕ},
      List.Forall₂ (fun e n => atomic_numbers e = some n) els ns →
      els.Nodup → ns.Nodup := by
  intro els ns h
  induction h with
  | nil => intro _; exact List.nodup_nil
  | @cons e n els' ns' h1 h2 ih =>
    intro hnd
    rw [List.nodup_cons] at hnd ⊢
    refine ⟨?_, ih hnd.2⟩
    intro hmem
    obtain ⟨e', he', hr⟩ := forall₂_exists_left h2 n hmem
    have : e = e' := atomic_numbers_inj h1 hr
    rw [this] at hnd
    exact hnd.1 he'

lemma sum_counts_step (l : List ℕ) (v : ℕ) (vs : List ℕ) (hv : v ∉ vs) :
    l.count v + l.countP (fun a => decide (a ∈ vs)) =
      l.countP fun a => decide (a ∈ v :: vs) := by
  induction l with
  | nil => simp
  | cons x xs ih =>
    rw [List.count_cons, List.countP_cons, List.countP_cons]
    by_cases hx : x = v
    · have e1 : (if (x == v) = true then 1 else 0) = 1 := by simp [hx]
      have e2 : (if decide (x ∈ vs) = true then 1 else 0) = 0 := by
        simp [hx]
        exact hv
      have e3 : (if decide (x ∈ v :: vs) = true then 1 else 0) = 1 := by
        simp [hx]
      rw [e1, e2, e3]
      omega
    · have e1 : (if (x == v) = true then 1 else 0) = 0 := by simp [hx]
      rw [e1]
      by_cases h2 : x ∈ vs
      · have e2 : (if decide (x ∈ vs) = true then 1 else 0) = 1 := by simp [h2]
        have e3 : (if decide (x ∈ v :: vs) = true then 1 else 0) = 1 := by
          simp [h2]
        rw [e2, e3]
        omega
      · have e2 : (if decide (x ∈ vs) = true then 1 else 0) = 0 := by simp [h2]
        have e3 : (if decide (x ∈ v :: vs) = true then 1 else 0) = 0 := by
          simp [hx, h2]
        rw [e2, e3]
        omega

lemma sum_counts_nodup (l : List ℕ) :
    ∀ (vs : List ℕ), vs.Nodup →
      (vs.map fun v => l.count v).sum =
        l.countP fun a => decide (a ∈ vs) := by
  intro vs
  induction vs with
  | nil => intro _; simp
  | cons v vs ih =>
    intro hnd
    rw [List.map_cons, List.sum_cons, ih (List.nodup_cons.mp hnd).2]
    exact sum_counts_step l v vs (List.nodup_cons.mp hnd).1

lemma sum_cast_int (l : List ℕ) :
    ((l.map fun n : ℕ => (n : ℤ)).sum) = ((l.sum : ℕ) : ℤ) := by
  induction l with
  | nil => rfl
  | cons x xs ih =>
    rw [List.map_cons, List.sum_cons, List.sum_cons, ih]
    push_cast
    ring

lemma referenceSum_cons (p : ℕ × ℚ) (ps : List (ℕ × ℚ)) (atoms : FlowAtoms) :
    referenceSum (p :: ps) atoms =
      (atoms.numbers.count p.1 : ℚ) * p.2 + referenceSum ps atoms := by
  simp [referenceSum]

lemma insertStep_fold (atoms : FlowAtoms) :
    ∀ (triples : List (ℕ × String × ℚ)) (st res : ℚ × ℤ × List (String × InfoVal)),
      triples.foldlM (insertStep atoms) st = .ok res →
      res.1 = st.1 + referenceSum (triples.map fun t => (t.1, t.2.2)) atoms ∧
      res.2.1 = st.2.1 -
        ((triples.map fun t => (atoms.numbers.count t.1 : ℤ)).sum) ∧
      infoLookup res.2.2 "energy" = infoLookup st.2.2 "energy" := by
  intro triples
  induction triples with
  | nil =>
    intro st res h
    rw [List.foldlM_nil] at h
    injection h with h2
    subst h2
    simp [referenceSum]
  | cons t ts ih =>
    intro st res h
    rw [List.foldlM_cons] at h
    by_cases hc : atoms.numbers.count t.1 = 0
    · have hstep : insertStep atoms st t = .ok st := by
        simp only [insertStep]
        rw [if_pos hc]
      rw [hstep, except_ok_bind] at h
      obtain ⟨ha, hb, hcc⟩ := ih st res h
      refine ⟨?_, ?_, hcc⟩
      · rw [ha, List.map_cons, referenceSum_cons]
        simp [hc]
      · rw [hb, List.map_cons, List.sum_cons]
        simp [hc]
    · by_cases hl : infoHasKey st.2.2 ("atomic_energy_" ++ t.2.1) = true
      · have hstep : insertStep atoms st t =
            .error "AssertionError: atomic energy label already present" := by
          simp only [insertStep]
          rw [if_neg hc, if_pos hl]
        rw [hstep, except_error_bind] at h
        cases h
      · have hstep : insertStep atoms st t =
            .ok (st.1 + (atoms.numbers.count t.1 : ℚ) * t.2.2,
              st.2.1 - (atoms.numbers.count t.1 : ℤ),
              infoSet st.2.2 ("atomic_energy_" ++ t.2.1)
                (InfoVal.num t.2.2)) := by
          simp only [insertStep]
          rw [if_neg hc, if_neg hl]
        rw [hstep, except_ok_bind] at h
        obtain ⟨ha, hb, hcc⟩ := ih _ res h
        refine ⟨?_, ?_, ?_⟩
        · rw [ha, List.map_cons, referenceSum_cons]
          ring
        · rw [hb, List.map_cons, List.sum_cons]
          ring
        · rw [hcc]
          exact infoLookup_set_other _ _ _ _ (atomic_label_ne_energy t.2.1)

lemma insertOne_ok_formation {triples : List (ℕ × String × ℚ)}
    {atoms atoms' : FlowAtoms} (h : insertOne triples atoms = .ok atoms')
    {e : ℚ} (he : infoLookup atoms.info "energy" = some (InfoVal.num e)) :
    infoLookup atoms'.info "formation_energy" =
      some (InfoVal.num
        (e - referenceSum (triples.map fun t => (t.1, t.2.2)) atoms)) := by
  unfold insertOne at h
  by_cases hf : infoHasKey atoms.info "formation_energy" = true
  · rw [if_pos hf] at h
    cases h
  · rw [if_neg hf] at h
    cases hfold : triples.foldlM (insertStep atoms)
        (0, (atoms.numbers.length : ℤ), atoms.info) with
    | error m =>
      rw [hfold] at h
      have h2 : (Except.error m : Except String FlowAtoms) = .ok atoms' := h
      cases h2
    | ok res =>
      rw [hfold] at h
      have h2 : insertFinish atoms res = .ok atoms' := h
      obtain ⟨ha0, hb0, hcc0⟩ := insertStep_fold atoms triples _ res hfold
      have ha : res.1 = 0 + referenceSum
          (triples.map fun t => (t.1, t.2.2)) atoms := ha0
      have hcc : infoLookup res.2.2 "energy" =
          infoLookup atoms.info "energy" := hcc0
      unfold insertFinish at h2
      by_cases hz : res.2.1 ≠ 0
      · rw [if_pos hz] at h2
        cases h2
      · rw [if_neg hz] at h2
        rw [hcc, he] at h2
        injection h2 with h3
        subst h3
        rw [infoLookup_set_self, ha]
        ring_nf

lemma insertOne_not_ok_formation {triples : List (ℕ × String × ℚ)}
    {atoms : FlowAtoms} (h : infoHasKey atoms.info "formation_energy" = true) :
    (insertOne triples atoms).isOk = false := by
  unfold insertOne
  rw [if_pos h]
  rfl

lemma insertOne_not_ok_uncovered {triples : List (ℕ × String × ℚ)}
    {atoms : FlowAtoms} {n0 : ℕ} (hn : n0 ∈ atoms.numbers)
    (hnc : ∀ t ∈ triples, t.1 ≠ n0)
    (hnodup : (triples.map fun t => t.1).Nodup) :
    (insertOne triples atoms).isOk = false := by
  unfold insertOne
  by_cases hf : infoHasKey atoms.info "formation_energy" = true
  · rw [if_pos hf]
    rfl
  · rw [if_neg hf]
    cases hfold : triples.foldlM (insertStep atoms)
        (0, (atoms.numbers.length : ℤ), atoms.info) with
    | error m => rfl
    | ok res =>
      show (insertFinish atoms res).isOk = false
      obtain ⟨_, hb0, _⟩ := insertStep_fold atoms triples _ res hfold
      have hb : res.2.1 = (atoms.numbers.length : ℤ) -
          ((triples.map fun t => (atoms.numbers.count t.1 : ℤ)).sum) := hb0
      have hmaps : (triples.map fun t => (atoms.numbers.count t.1 : ℤ)) =
          (((triples.map fun t => t.1).map fun v : ℕ =>
            atoms.numbers.count v).map fun n : ℕ => (n : ℤ)) := by
        rw [List.map_map, List.map_map]
        rfl
      have hsum : ((triples.map fun t =>
          (atoms.numbers.count t.1 : ℤ)).sum) =
          ((atoms.numbers.countP fun a =>
            decide (a ∈ triples.map fun t => t.1) : ℕ) : ℤ) := by
        rw [hmaps, sum_cast_int, sum_counts_nodup _ _ hnodup]
      have hle : (atoms.numbers.countP fun a =>
          decide (a ∈ triples.map fun t => t.1)) ≤ atoms.numbers.length :=
        List.countP_le_length _
      have hner : (atoms.numbers.countP fun a =>
          decide (a ∈ triples.map fun t => t.1)) ≠ atoms.numbers.length := by
        intro heq
        have hall := List.countP_eq_length.mp heq n0 hn
        have hmem : n0 ∈ triples.map fun t => t.1 := by
          simpa using hall
        obtain ⟨t, ht, ht2⟩ := List.mem_map.mp hmem
        exact hnc t ht ht2
      have hz : res.2.1 ≠ 0 := by
        rw [hb, hsum]
        omega
      unfold insertFinish
      rw [if_pos hz]
      rfl

lemma insert_ok_inv {elements : List String} {energies : List ℚ}
    {data data' : List FlowAtoms}
    (h : insert_formation_energy elements energies data = .ok data') :
    energies.length = elements.length ∧
    ∃ ns, elements.mapM atomic_numbers = some ns ∧
      data.mapM (insertOne (ns.zip (elements.zip energies))) = .ok data' := by
  unfold insert_formation_energy at h
  by_cases hl : energies.length ≠ elements.length
  · rw [if_pos hl] at h
    cases h
  · rw [if_neg hl] at h
    cases hm : elements.mapM atomic_numbers with
    | none =>
      rw [hm] at h
      cases h
    | some ns =>
      rw [hm] at h
      exact ⟨by omega, ns, rfl, h⟩

lemma zip_zip_proj : ∀ (ns : List ℕ) (els : List String) (ens : List ℚ),
    ns.length ≤ els.length →
    ((ns.zip (els.zip ens)).map fun t => (t.1, t.2.2)) = ns.zip ens := by
  intro ns
  induction ns with
  | nil => intro els ens _; rfl
  | cons n ns ih =>
    intro els ens hlen
    cases els with
    | nil => simp at hlen
    | cons e els =>
      cases ens with
      | nil => simp
      | cons q ens =>
        simp only [List.zip_cons_cons, List.map_cons]
        rw [ih els ens (by simpa using hlen)]

/-- C7: insert_formation_energy (behind Dataset.set_formation_energy)
gives every frame a formation_energy equal to its energy minus the sum
over supplied elements of reference energy times atom count, and the
computation fails whenever some frame already carries formation_energy
or contains an element with no supplied reference energy. -/
theorem c7_set_formation_energy :
    (∀ (elements : List String) (energies : List ℚ) (ns : List ℕ)
        (data data' : List FlowAtoms),
      insert_formation_energy elements energies data = .ok data' →
      elements.mapM atomic_numbers = some ns →
      List.Forall₂ (fun a b : FlowAtoms =>
        ∀ e, infoLookup a.info "energy" = some (InfoVal.num e) →
          infoLookup b.info "formation_energy" =
            some (InfoVal.num (e - referenceSum (ns.zip energies) a)))
        data data') ∧
    (∀ (elements : List String) (energies : List ℚ) (data : List FlowAtoms)
        (a : FlowAtoms), a ∈ data →
      infoHasKey a.info "formation_energy" = true →
      (insert_formation_energy elements energies data).isOk = false) ∧
    (∀ (elements : List String) (energies : List ℚ) (data : List FlowAtoms)
        (a : FlowAtoms) (n0 : ℕ), a ∈ data → n0 ∈ a.numbers →
      elements.Nodup → (∀ e ∈ elements, atomic_numbers e ≠ some n0) →
      (insert_formation_energy elements energies data).isOk = false) := by
  refine ⟨?_, ?_, ?_⟩
  · intro elements energies ns data data' h hns
    obtain ⟨hlen, ns', hns', hmap⟩ := insert_ok_inv h
    rw [hns] at hns'
    injection hns' with h2
    subst h2
    have hf2 := mapM_except_ok _ hmap
    have hlen2 : elements.length = ns.length :=
      (mapM_option_forall₂ _ hns).length_eq
    refine hf2.imp ?_
    intro a b hab e he
    have hres := insertOne_ok_formation hab he
    rw [zip_zip_proj ns elements energies (by omega)] at hres
    exact hres
  · intro elements energies data a ha hfkey
    unfold insert_formation_energy
    by_cases hl : energies.length ≠ elements.length
    · rw [if_pos hl]
      rfl
    · rw [if_neg hl]
      cases hm : elements.mapM atomic_numbers with
      | none => rfl
      | some ns =>
        exact mapM_except_not_ok _ ⟨a, ha, insertOne_not_ok_formation hfkey⟩
  · intro elements energies data a n0 ha hn hnd hne
    unfold insert_formation_energy
    by_cases hl : energies.length ≠ elements.length
    · rw [if_pos hl]
      rfl
    · rw [if_neg hl]
      cases hm : elements.mapM atomic_numbers with
      | none => rfl
      | some ns =>
        have hf2 := mapM_option_forall₂ _ hm
        have hlen2 : elements.length = ns.length := hf2.length_eq
        have hleq : energies.length = elements.length := not_ne_iff.mp hl
        have hkeys : ((ns.zip (elements.zip energies)).map fun t => t.1) =
            ns := by
          have hle2 : ns.length ≤ (elements.zip energies).length := by
            rw [List.length_zip]
            omega
          exact List.map_fst_zip ns (elements.zip energies) hle2
        show (data.mapM
          (insertOne (ns.zip (elements.zip energies)))).isOk = false
        apply mapM_except_not_ok
        refine ⟨a, ha, ?_⟩
        refine insertOne_not_ok_uncovered hn ?_ ?_
        · intro t ht hteq
          have ht' : (t.1, t.2) ∈ ns.zip (elements.zip energies) := ht
          have hmem : t.1 ∈ ns := (List.of_mem_zip ht').1
          obtain ⟨e, hee, her⟩ := forall₂_exists_left hf2 t.1 hmem
          rw [hteq] at her
          exact hne e hee her
        · rw [hkeys]
          exact nodup_of_forall₂_atomic hf2 hnd

/-- Witness for C7: the spec scenario, a two-hydrogen frame with energy
10 and reference H = 3 gets formation energy 4; a frame that already has
formation_energy fails; a supplied element list missing hydrogen
fails. -/
theorem c7_witness :
    insert_formation_energy ["H"] [3] [atomsH2] = .ok [atomsH2result] ∧
    infoLookup atomsH2result.info "formation_energy" =
      some (InfoVal.num
        (10 - referenceSum ([(1 : ℕ)].zip [(3 : ℚ)]) atomsH2)) ∧
    (10 : ℚ) - referenceSum ([(1 : ℕ)].zip [(3 : ℚ)]) atomsH2 = 4 ∧
    (insert_formation_energy ["H"] [3] [atomsH2fe]).isOk = false ∧
    (insert_formation_energy ["O"] [3] [atomsH2]).isOk = false := by
  refine ⟨?_, ?_, ?_, ?_, ?_⟩
  · with_unfolding_all rfl
  · have hf := c7_set_formation_energy.1 ["H"] [3] [1] [atomsH2]
      [atomsH2result] (by with_unfolding_all rfl) (by with_unfolding_all rfl)
    have hr := (List.forall₂_cons.mp hf).1
    exact hr 10 (by with_unfolding_all rfl)
  · with_unfolding_all rfl
  · exact c7_set_formation_energy.2.1 ["H"] [3] [atomsH2fe] atomsH2fe
      (by simp) (by with_unfolding_all rfl)
  · refine c7_set_formation_energy.2.2 ["O"] [3] [atomsH2] atomsH2 1
      (by simp) (by with_unfolding_all decide) (by simp) ?_
    intro e he
    have he2 : e = "O" := by simpa using he
    subst he2
    with_unfolding_all decide


lemma mask_elements_eval (numbers : List ℕ) (els : List String) (ns : List ℕ)
    (hels : els.mapM atomic_numbers = some ns) :
    get_index_element_mask numbers (some els) none =
      some (((List.replicate numbers.length true).zip
        (numbers.map fun n => ns.contains n)).map fun p => p.1 && p.2) := by
  simp only [get_index_element_mask, hels]

lemma replicate_true_zip (l : List Bool) :
    ((List.replicate l.length true).zip l).map (fun p => p.1 && p.2) = l := by
  induction l with
  | nil => rfl
  | cons x xs ih =>
    simp only [List.length_cons, List.replicate_succ, List.zip_cons_cons,
      List.map_cons, Bool.true_and]
    rw [ih]

lemma maskFor_elements (a0 : FlowAtoms) (els : List String) (ns : List ℕ)
    (hels : els.mapM atomic_numbers = some ns) :
    maskFor none (some els) a0 = a0.numbers.map fun n => ns.contains n := by
  unfold maskFor
  rw [if_pos (by simp), mask_elements_eval a0.numbers els ns hels]
  have hlen : a0.numbers.length = (a0.numbers.map fun n => ns.contains n).length :=
    (List.length_map _ _).symm
  rw [Option.getD_some, hlen, replicate_true_zip]

lemma maskCheck_elements (a0 : FlowAtoms) (els : List String) (ns : List ℕ)
    (hels : els.mapM atomic_numbers = some ns) :
    maskCheck none (some els) ["forces"] a0 = .ok (maskFor none (some els) a0) := by
  have c1 : ((["forces"] : List String).contains "energy") = false := by
    with_unfolding_all decide
  have c2 : ((["forces"] : List String).contains "stress") = false := by
    with_unfolding_all decide
  have c3 : ((["forces"] : List String).contains "forces") = true := by
    with_unfolding_all decide
  unfold maskCheck
  rw [if_pos (by simp), if_neg (by rw [c1]; exact Bool.false_ne_true),
    if_neg (by rw [c2]; simp), if_neg (by rw [c3]; simp),
    mask_elements_eval a0.numbers els ns hels]
  unfold maskFor
  rw [if_pos (by simp), mask_elements_eval a0.numbers els ns hels]
  rfl

lemma maskFor_length (a0 : FlowAtoms) (els : List String) (ns : List ℕ)
    (hels : els.mapM atomic_numbers = some ns) :
    (maskFor none (some els) a0).length = a0.numbers.length := by
  rw [maskFor_elements a0 els ns hels]
  exact List.length_map _ _

lemma filterMap_mask_ne_nil (mask : List Bool) :
    ∀ l : List Vec3, mask.length ≤ l.length → mask.any id = true →
      ((l.zip mask).filterMap fun q => if q.2 then some q.1 else none) ≠ [] := by
  induction mask with
  | nil => intro l _ hany; simp at hany
  | cons b bs ih =>
    intro l hlen hany
    cases l with
    | nil => simp at hlen
    | cons x xs =>
      cases b with
      | true =>
        simp only [List.zip_cons_cons, List.filterMap_cons, if_pos]
        exact List.cons_ne_nil _ _
      | false =>
        have hany2 : bs.any id = true := by simpa using hany
        have hlen2 : bs.length ≤ xs.length := by simpa using hlen
        simp only [List.zip_cons_cons, List.filterMap_cons, if_neg]
        exact ih xs hlen2 hany2

lemma except_isOk_exists {α : Type} {e : Except String α} (h : e.isOk = true) :
    ∃ v, e = .ok v := by
  cases e with
  | error m => exact absurd h Bool.false_ne_true
  | ok v => exact ⟨v, rfl⟩

lemma applyMetric_ok (metric : String) (arr0 arr1 : List (List ℚ))
    (hm : metric = "mae" ∨ metric = "rmse" ∨ metric = "max")
    (h0 : arr0 ≠ []) (h1 : arr1 ≠ []) :
    ∃ v, applyMetric metric arr0 arr1 = .ok v := by
  rcases hm with h | h | h <;> subst h
  · refine except_isOk_exists ?_
    dsimp only [applyMetric]
    rw [if_pos (by simp)]
    rfl
  · refine except_isOk_exists ?_
    dsimp only [applyMetric]
    rw [if_neg (by rw [show (("rmse" : String) == "mae") = false by
          with_unfolding_all decide]; simp),
        if_pos (by simp)]
    rfl
  · obtain ⟨x0, t0, rfl⟩ := List.exists_cons_of_ne_nil h0
    obtain ⟨x1, t1, rfl⟩ := List.exists_cons_of_ne_nil h1
    refine except_isOk_exists ?_
    dsimp only [applyMetric]
    rw [if_neg (by rw [show (("max" : String) == "mae") = false by
          with_unfolding_all decide]; simp),
        if_neg (by rw [show (("max" : String) == "rmse") = false by
          with_unfolding_all decide]; simp),
        if_pos (by simp)]
    simp only [List.zip_cons_cons, List.map_cons]
    rfl

lemma rowFor_forces_eq (metric : String) (mask : List Bool)
    (p : FlowAtoms × FlowAtoms) (f0 f1 : List Vec3)
    (h0 : p.1.forces = some f0) (h1 : p.2.forces = some f1) :
    rowFor metric ["forces"] mask p =
      (applyMetric metric (maskedRows f0 mask) (maskedRows f1 mask)).map
        fun v => [v] := by
  have c1 : (("forces" : String) == "energy") = false := by
    with_unfolding_all decide
  have c2 : (("forces" : String) == "forces") = true := by
    with_unfolding_all decide
  have hpa : propArrays "forces" p.1 p.2 mask =
      .ok (maskedRows f0 mask, maskedRows f1 mask) := by
    unfold propArrays
    rw [if_neg (by rw [c1]; simp), if_pos (by rw [c2]),
      h0, h1]
    rfl
  unfold rowFor
  rw [List.mapM_cons, List.mapM_nil]
  rw [show ((do
      let arrs ← propArrays "forces" p.1 p.2 mask
      applyMetric metric arrs.1 arrs.2 : Except String ℝ)) =
    applyMetric metric (maskedRows f0 mask) (maskedRows f1 mask) by
      rw [hpa, except_ok_bind]]
  cases ha : applyMetric metric (maskedRows f0 mask) (maskedRows f1 mask) with
  | error m => rw [except_error_bind]; rfl
  | ok v => rw [except_ok_bind]; rfl

lemma rowFor_forces_ok (metric : String) (mask : List Bool)
    (p : FlowAtoms × FlowAtoms) (f0 f1 : List Vec3)
    (hm : metric = "mae" ∨ metric = "rmse" ∨ metric = "max")
    (h0 : p.1.forces = some f0) (h1 : p.2.forces = some f1)
    (hl0 : mask.length ≤ f0.length) (hl1 : mask.length ≤ f1.length)
    (hany : mask.any id = true) :
    ∃ row, rowFor metric ["forces"] mask p = .ok row := by
  have hne0 : maskedRows f0 mask ≠ [] := by
    unfold maskedRows
    intro hc
    exact filterMap_mask_ne_nil mask f0 hl0 hany (List.map_eq_nil.mp hc)
  have hne1 : maskedRows f1 mask ≠ [] := by
    unfold maskedRows
    intro hc
    exact filterMap_mask_ne_nil mask f1 hl1 hany (List.map_eq_nil.mp hc)
  obtain ⟨v, hv⟩ := applyMetric_ok metric (maskedRows f0 mask)
    (maskedRows f1 mask) hm hne0 hne1
  refine ⟨[v], ?_⟩
  rw [rowFor_forces_eq metric mask p f0 f1 h0 h1, hv]
  rfl

lemma presenceCheck_forces (p : FlowAtoms × FlowAtoms)
    (h0 : p.1.forces.isSome = true) (h1 : p.2.forces.isSome = true) :
    presenceCheck ["forces"] p = .ok () := by
  have c1 : ((["forces"] : List String).contains "energy") = false := by
    with_unfolding_all decide
  have c2 : ((["forces"] : List String).contains "forces") = true := by
    with_unfolding_all decide
  have c3 : ((["forces"] : List String).contains "stress") = false := by
    with_unfolding_all decide
  simp [presenceCheck, c1, c2, c3, h0, h1]

lemma metricRows_cons_skip (ai : Option (List ℕ)) (els : Option (List String))
    (metric : String) (props : List String) (p : FlowAtoms × FlowAtoms)
    (ps : List (FlowAtoms × FlowAtoms)) (mask : List Bool)
    (hmk : maskCheck ai els props p.1 = .ok mask) (hany : mask.any id = false) :
    metricRows ai els metric props (p :: ps) = metricRows ai els metric props ps := by
  simp only [metricRows, hmk, hany]
  simp

lemma metricRows_cons_keep (ai : Option (List ℕ)) (els : Option (List String))
    (metric : String) (props : List String) (p : FlowAtoms × FlowAtoms)
    (ps : List (FlowAtoms × FlowAtoms)) (mask : List Bool) (row : List ℝ)
    (rows : List (List ℝ))
    (hmk : maskCheck ai els props p.1 = .ok mask) (hany : mask.any id = true)
    (hpres : presenceCheck props p = .ok ())
    (hrow : rowFor metric props mask p = .ok row)
    (hrest : metricRows ai els metric props ps = .ok rows) :
    metricRows ai els metric props (p :: ps) = .ok (row :: rows) := by
  simp only [metricRows, hmk, hany, hpres, hrow, hrest]
  simp

lemma metricRows_elements_char (els : List String) (ns : List ℕ)
    (metric : String)
    (hm : metric = "mae" ∨ metric = "rmse" ∨ metric = "max")
    (hels : els.mapM atomic_numbers = some ns) :
    ∀ pairs : List (FlowAtoms × FlowAtoms),
      (∀ p ∈ pairs, p.1.forces.isSome = true ∧ p.2.forces.isSome = true ∧
        (p.1.forces.getD []).length = p.1.numbers.length ∧
        (p.2.forces.getD []).length = p.1.numbers.length) →
      ∃ rows, metricRows none (some els) metric ["forces"] pairs = .ok rows ∧
        ((pairs.filter fun p => (maskFor none (some els) p.1).any id).mapM
          fun p => rowFor metric ["forces"] (maskFor none (some els) p.1) p)
          = .ok rows := by
  intro pairs
  induction pairs with
  | nil => intro _; exact ⟨[], rfl, rfl⟩
  | cons p ps ih =>
    intro hall
    obtain ⟨h0, h1, hl0, hl1⟩ := hall p (List.mem_cons_self p ps)
    obtain ⟨rows, hrows, hmapm⟩ :=
      ih fun q hq => hall q (List.mem_cons_of_mem p hq)
    by_cases hany : (maskFor none (some els) p.1).any id = true
    · obtain ⟨f0, hf0⟩ := Option.isSome_iff_exists.mp h0
      obtain ⟨f1, hf1⟩ := Option.isSome_iff_exists.mp h1
      have hf0len : f0.length = p.1.numbers.length := by
        rw [hf0] at hl0; simpa using hl0
      have hf1len : f1.length = p.1.numbers.length := by
        rw [hf1] at hl1; simpa using hl1
      have hl0len : (maskFor none (some els) p.1).length ≤ f0.length := by
        rw [maskFor_length p.1 els ns hels, hf0len]
      have hl1len : (maskFor none (some els) p.1).length ≤ f1.length := by
        rw [maskFor_length p.1 els ns hels, hf1len]
      obtain ⟨row, hrow⟩ := rowFor_forces_ok metric
        (maskFor none (some els) p.1) p f0 f1 hm hf0 hf1 hl0len hl1len hany
      refine ⟨row :: rows, ?_, ?_⟩
      · exact metricRows_cons_keep none (some els) metric ["forces"] p ps
          (maskFor none (some els) p.1) row rows
          (maskCheck_elements p.1 els ns hels) hany
          (presenceCheck_forces p h0 h1) hrow hrows
      · have hfc : List.filter
            (fun q : FlowAtoms × FlowAtoms => (maskFor none (some els) q.1).any id)
            (p :: ps) =
            p :: List.filter
              (fun q => (maskFor none (some els) q.1).any id) ps :=
          List.filter_cons_of_pos hany
        rw [hfc, List.mapM_cons, hrow,
          except_ok_bind, hmapm, except_ok_bind]
        rfl
    · have hany2 : (maskFor none (some els) p.1).any id = false :=
        Bool.eq_false_iff.mpr hany
      refine ⟨rows, ?_, ?_⟩
      · rw [metricRows_cons_skip none (some els) metric ["forces"] p ps
          (maskFor none (some els) p.1)
          (maskCheck_elements p.1 els ns hels) hany2]
        exact hrows
      · have hfc : List.filter
            (fun q : FlowAtoms × FlowAtoms => (maskFor none (some els) q.1).any id)
            (p :: ps) =
            List.filter (fun q => (maskFor none (some els) q.1).any id) ps :=
          List.filter_cons_of_neg hany
        rw [hfc]
        exact hmapm

lemma compute_metrics_eval (ai : Option (List ℕ)) (oels : Option (List String))
    (metric : String) (props : List String) (data_0 data_1 : List FlowAtoms)
    (rows : List (List ℝ))
    (hlen : data_0.length = data_1.length)
    (hcheck : checkPairs (data_0.zip data_1) = .ok ())
    (hrows : metricRows ai oels metric props (data_0.zip data_1) = .ok rows) :
    compute_metrics false ai oels metric props data_0 (some data_1) =
      if rows.isEmpty then
        .error "AssertionError: no states in dataset contained atoms of interest"
      else .ok rows := by
  simp only [compute_metrics]
  rw [if_neg (not_not_intro hlen), hcheck, hrows]

/-- C8: in compute_metrics, every paired frame whose element mask selects
no atoms is excluded from the returned error rows: when every mask is
empty the computation fails with an assertion error instead of returning
an empty table, and otherwise it returns exactly one row (the rowFor
value) per frame with a nonempty mask, in dataset order. -/
theorem c8_mask_exclusion (els : List String) (ns : List ℕ) (metric : String)
    (data_0 data_1 : List FlowAtoms)
    (hm : metric = "mae" ∨ metric = "rmse" ∨ metric = "max")
    (hels : els.mapM atomic_numbers = some ns)
    (hlen : data_0.length = data_1.length)
    (hcheck : checkPairs (data_0.zip data_1) = .ok ())
    (hforces : ∀ p ∈ data_0.zip data_1, p.1.forces.isSome = true ∧
      p.2.forces.isSome = true ∧
      (p.1.forces.getD []).length = p.1.numbers.length ∧
      (p.2.forces.getD []).length = p.1.numbers.length) :
    ((∀ p ∈ data_0.zip data_1, (maskFor none (some els) p.1).any id = false) →
      (compute_metrics false none (some els) metric ["forces"] data_0
        (some data_1)).isOk = false) ∧
    ((∃ p ∈ data_0.zip data_1, (maskFor none (some els) p.1).any id = true) →
      ∃ rows, compute_metrics false none (some els) metric ["forces"] data_0
          (some data_1) = .ok rows ∧
        (((data_0.zip data_1).filter fun p =>
            (maskFor none (some els) p.1).any id).mapM
          fun p => rowFor metric ["forces"] (maskFor none (some els) p.1) p)
          = .ok rows ∧
        rows.length = ((data_0.zip data_1).filter fun p =>
          (maskFor none (some els) p.1).any id).length) := by
  obtain ⟨rows, hrows, hmapm⟩ :=
    metricRows_elements_char els ns metric hm hels (data_0.zip data_1) hforces
  have heval := compute_metrics_eval none (some els) metric ["forces"]
    data_0 data_1 rows hlen hcheck hrows
  constructor
  · intro hempty
    have hfil : ((data_0.zip data_1).filter fun p =>
        (maskFor none (some els) p.1).any id) = [] := by
      rw [List.filter_eq_nil]
      intro p hp
      rw [hempty p hp]
      simp
    rw [hfil, List.mapM_nil] at hmapm
    have hrnil : rows = [] := by
      have := hmapm
      injection this with h2
      exact h2.symm
    subst hrnil
    rw [heval, if_pos (by simp)]
    rfl
  · intro hsome
    obtain ⟨p, hp, hpany⟩ := hsome
    have hlenr : rows.length = ((data_0.zip data_1).filter fun p =>
        (maskFor none (some els) p.1).any id).length := by
      have hfa := mapM_except_ok _ hmapm
      exact (List.Forall₂.length_eq hfa).symm
    have hfilne : ((data_0.zip data_1).filter fun p =>
        (maskFor none (some els) p.1).any id) ≠ [] := by
      intro hc
      have : p ∈ ((data_0.zip data_1).filter fun p =>
          (maskFor none (some els) p.1).any id) :=
        List.mem_filter.mpr ⟨hp, hpany⟩
      rw [hc] at this
      cases this
    have hrne : rows ≠ [] := by
      intro hc
      subst hc
      exact hfilne (List.eq_nil_of_length_eq_zero hlenr.symm)
    refine ⟨rows, ?_, hmapm, hlenr⟩
    rw [heval, if_neg (by simpa using hrne)]

/-- Witness for C8: comparing single-hydrogen frames with the element
filter H yields exactly one error row, while the element filter O gives
every frame an empty mask and the computation fails. -/
theorem c8_witness :
    (∃ rows, compute_metrics false none (some ["H"]) "mae" ["forces"] [faA]
        (some [faC]) = .ok rows ∧ rows.length = 1) ∧
    (compute_metrics false none (some ["O"]) "mae" ["forces"] [faA]
        (some [faC])).isOk = false := by
  constructor
  · obtain ⟨rows, hok, hmapm, hlenr⟩ :=
      (c8_mask_exclusion ["H"] [1] "mae" [faA] [faC]
        (Or.inl rfl) (by with_unfolding_all rfl) rfl
        (by with_unfolding_all rfl)
        (by with_unfolding_all decide)).2
        ⟨(faA, faC), List.mem_cons_self _ _, by with_unfolding_all decide⟩
    refine ⟨rows, hok, ?_⟩
    rw [hlenr]
    with_unfolding_all decide
  · exact (c8_mask_exclusion ["O"] [8] "mae" [faA] [faC]
      (Or.inl rfl) (by with_unfolding_all rfl) rfl
      (by with_unfolding_all rfl)
      (by with_unfolding_all decide)).1
      (by with_unfolding_all decide)

set_option maxRecDepth 10000 in
set_option maxHeartbeats 2000000 in
lemma symRound_lt : ∀ n, n < 119 →
    ((chemical_symbols.get? n).bind symIndex) = some n := by
  with_unfolding_all decide

lemma mapM_option_exists {α β : Type} (f : α → Option β) :
    ∀ l : List α, (∀ a ∈ l, (f a).isSome = true) →
      ∃ l', l.mapM f = some l' := by
  intro l
  induction l with
  | nil => intro _; exact ⟨[], rfl⟩
  | cons x xs ih =>
    intro hall
    obtain ⟨b, hb⟩ := Option.isSome_iff_exists.mp
      (hall x (List.mem_cons_self x xs))
    obtain ⟨l', hl'⟩ := ih fun a ha => hall a (List.mem_cons_of_mem x ha)
    refine ⟨b :: l', ?_⟩
    rw [List.mapM_cons, hb, hl']
    rfl

lemma forall₂_trans_comp {α β γ : Type} {R : α → β → Prop} {S : β → γ → Prop}
    {T : α → γ → Prop} (hc : ∀ a b c, R a b → S b c → T a c) :
    ∀ {l1 : List α} {l2 : List β} {l3 : List γ},
      List.Forall₂ R l1 l2 → List.Forall₂ S l2 l3 → List.Forall₂ T l1 l3 := by
  intro l1 l2 l3 h1
  induction h1 generalizing l3 with
  | nil =>
    intro h2
    cases h2
    exact List.Forall₂.nil
  | cons hab _ ih =>
    intro h2
    cases h2 with
    | cons hbc htail => exact List.Forall₂.cons (hc _ _ _ hab hbc) (ih htail)

lemma forall₂_map_eq {α β γ : Type} {R : α → β → Prop} (f : β → γ) (f2 : α → γ)
    (hc : ∀ a b, R a b → f b = f2 a) :
    ∀ {l1 : List α} {l2 : List β}, List.Forall₂ R l1 l2 →
      l2.map f = l1.map f2 := by
  intro l1 l2 h
  induction h with
  | nil => rfl
  | cons hab _ ih => simp only [List.map_cons, hc _ _ hab, ih]

lemma roundTo8_close (q : ℚ) :
    npIsClose defaultRtol defaultAtol (roundTo8 q) q = true := by
  unfold npIsClose roundTo8 defaultRtol defaultAtol
  rw [decide_eq_true_eq]
  have h1 : |(round (q * 100000000) : ℚ) - q * 100000000| ≤ 1 / 2 := by
    rw [abs_sub_comm]
    exact abs_sub_round (q * 100000000)
  have h2 : (round (q * 100000000) : ℚ) / 100000000 - q =
      ((round (q * 100000000) : ℚ) - q * 100000000) / 100000000 := by
    ring
  rw [h2, abs_div, abs_of_pos (by norm_num : (0 : ℚ) < 100000000)]
  have h3 : (0 : ℚ) ≤ 1 / 100000 * |q| := by positivity
  rw [div_le_iff (by norm_num : (0 : ℚ) < 100000000)]
  nlinarith [h1, h3]

lemma Vec3.close_round8 (v : Vec3) :
    Vec3.close defaultRtol defaultAtol v.round8 v = true := by
  simp [Vec3.close, Vec3.round8, roundTo8_close]

lemma zip_self_all {α : Type} (f : α → α → Bool) (hf : ∀ a, f a a = true) :
    ∀ l : List α, (l.zip l).all (fun p => f p.1 p.2) = true := by
  intro l
  induction l with
  | nil => rfl
  | cons x xs ih =>
    rw [List.zip_cons_cons, List.all_cons, ih, hf x]
    rfl

lemma zip_map_left_all {α : Type} (f : α → α) (g : α → α → Bool)
    (hg : ∀ a, g (f a) a = true) :
    ∀ l : List α, ((l.map f).zip l).all (fun p => g p.1 p.2) = true := by
  intro l
  induction l with
  | nil => rfl
  | cons x xs ih =>
    rw [List.map_cons, List.zip_cons_cons, List.all_cons, ih, hg x]
    rfl

lemma vecListClose_round8 (l : List Vec3) :
    vecListClose defaultRtol defaultAtol (l.map Vec3.round8) l = true := by
  unfold vecListClose
  rw [Bool.and_eq_true]
  exact ⟨by simp, zip_map_left_all Vec3.round8 _ Vec3.close_round8 l⟩


lemma geometry_eq_of_parts (g2 g : Geometry)
    (hl : g2.per_atom.length = g.per_atom.length)
    (hcell : g2.cell = g.cell)
    (hn : g2.per_atom.map (fun a : Atom => (a.number : ℚ)) =
      g.per_atom.map (fun a : Atom => (a.number : ℚ)))
    (hp : g2.per_atom.map Atom.position =
      (g.per_atom.map Atom.position).map Vec3.round8) :
    Geometry.eq g2 g = true := by
  unfold Geometry.eq
  rw [if_pos]
  · rw [Bool.and_eq_true, Bool.and_eq_true]
    refine ⟨⟨?_, ?_⟩, ?_⟩
    · rw [hn]
      exact listClose_self _
    · rw [hp]
      exact vecListClose_round8 _
    · rw [hcell]
      exact mat3_close_self _
  · rw [Bool.and_eq_true]
    refine ⟨?_, ?_⟩
    · rw [hl]
      simp
    · unfold Geometry.periodic
      rw [hcell]
      simp

/-- C5: serialization round-trip of Geometry through the extended-xyz
format: whenever every atomic number indexes into the chemical symbol
table (number < 119), to_string succeeds, from_string parses the record
back, copy returns the same parsed geometry, and the parsed geometry
compares equal to the original under Geometry.eq (positions are rounded
to 8 decimals by the percent-16.8f format, which stays within the
allclose tolerance). -/
theorem c5_serialization_roundtrip (g : Geometry)
    (h : ∀ a ∈ g.per_atom, a.number < 119) :
    ∃ x g2, g.to_string = some x ∧ Geometry.from_string x = some g2 ∧
      Geometry.copy g = some g2 ∧ Geometry.eq g2 g = true := by
  have hlen119 : chemical_symbols.length = 119 := by with_unfolding_all decide
  have hsome1 : ∀ a ∈ g.per_atom,
      ((chemical_symbols.get? a.number).map fun s =>
        AtomLine.mk s a.position.round8
          (if g.per_atom.all (fun b => b.force.isSome) then
            a.force.map Vec3.round8 else none)).isSome = true := by
    intro a ha
    cases hc : chemical_symbols.get? a.number with
    | none =>
      have h1 := List.get?_eq_none.mp hc
      have h2 := h a ha
      omega
    | some s => rfl
  obtain ⟨rows, hrows⟩ := mapM_option_exists _ g.per_atom hsome1
  have hfa1 := mapM_option_forall₂ _ hrows
  have hlen1 := List.Forall₂.length_eq hfa1
  have hx : g.to_string = some
      { natoms := g.per_atom.length
        lattice := if g.periodic then some (latticeNine g.cell) else none
        pbcT := g.periodic
        props_forces := g.per_atom.all (fun b => b.force.isSome)
        energy := g.energy
        stress := g.stress
        delta := g.delta
        phase := g.phase
        stdoutK := g.stdout
        logprob := g.logprob
        identifier := g.identifier
        order := g.order
        rows := rows } := by
    dsimp only [Geometry.to_string]
    rw [hrows]
    rfl
  have hsome2 : ∀ r ∈ rows, ((symIndex r.sym).map fun n =>
      Atom.mk n r.pos r.frc).isSome = true := by
    intro r hr
    obtain ⟨a, ha, hfa⟩ := forall₂_exists_left hfa1 r hr
    obtain ⟨s, hs, hr2⟩ := Option.map_eq_some'.mp hfa
    have h119 : a.number < 119 := h a ha
    have hkey := symRound_lt a.number h119
    rw [hs] at hkey
    have hkey2 : symIndex s = some a.number := hkey
    subst hr2
    show ((symIndex s).map fun n =>
      Atom.mk n a.position.round8
        (if g.per_atom.all (fun b => b.force.isSome) then
          a.force.map Vec3.round8 else none)).isSome = true
    rw [hkey2]
    rfl
  obtain ⟨per, hper⟩ := mapM_option_exists _ rows hsome2
  have hfa2 := mapM_option_forall₂ _ hper
  have hlen2 := List.Forall₂.length_eq hfa2
  have hrel : List.Forall₂ (fun a at2 => at2.number = a.number ∧
      at2.position = a.position.round8) g.per_atom per := by
    refine forall₂_trans_comp ?_ hfa1 hfa2
    intro a r at2 hf1 hf2
    obtain ⟨s, hs, hr2⟩ := Option.map_eq_some'.mp hf1
    subst hr2
    have h119 : a.number < 119 := by
      obtain ⟨hlt, _⟩ := List.get?_eq_some.mp hs
      omega
    have hkey := symRound_lt a.number h119
    rw [hs] at hkey
    have hkey2 : symIndex s = some a.number := hkey
    have hf2b : (symIndex s).map (fun n =>
        Atom.mk n a.position.round8
          (if g.per_atom.all (fun b => b.force.isSome) then
            a.force.map Vec3.round8 else none)) = some at2 := hf2
    rw [hkey2] at hf2b
    have hat : Atom.mk a.number a.position.round8
        (if g.per_atom.all (fun b => b.force.isSome) then
          a.force.map Vec3.round8 else none) = at2 :=
      Option.some.inj hf2b
    rw [← hat]
    exact ⟨rfl, rfl⟩
  have hpl : per.length = g.per_atom.length := by omega
  have hg2 : Geometry.from_string
      { natoms := g.per_atom.length
        lattice := if g.periodic then some (latticeNine g.cell) else none
        pbcT := g.periodic
        props_forces := g.per_atom.all (fun b => b.force.isSome)
        energy := g.energy
        stress := g.stress
        delta := g.delta
        phase := g.phase
        stdoutK := g.stdout
        logprob := g.logprob
        identifier := g.identifier
        order := g.order
        rows := rows } = some
      { per_atom := per
        cell := ((if g.periodic then some (latticeNine g.cell) else
            none).map fun l => (nineToMat l).transpose).getD Mat3.zero
        energy := g.energy
        stress := g.stress
        delta := g.delta
        phase := g.phase
        logprob := g.logprob
        stdout := g.stdout
        identifier := g.identifier
        order := g.order } := by
    dsimp only [Geometry.from_string]
    rw [if_pos hlen1.symm, hper]
    rfl
  have hcell : ((if g.periodic then some (latticeNine g.cell) else
      none).map fun l => (nineToMat l).transpose).getD Mat3.zero = g.cell := by
    by_cases hp : g.periodic = true
    · rw [if_pos hp]
      rfl
    · rw [if_neg hp]
      have hz : g.cell = Mat3.zero := by
        by_contra hc
        exact hp (decide_eq_true hc)
      rw [hz]
      rfl
  refine ⟨_, _, hx, hg2, ?_, ?_⟩
  · unfold Geometry.copy
    rw [hx]
    exact hg2
  · have hnum_eq : per.map (fun a : Atom => (a.number : ℚ)) =
        g.per_atom.map (fun a : Atom => (a.number : ℚ)) :=
      forall₂_map_eq _ _ (fun a b hab => by rw [hab.1]) hrel
    have hpos_eq : per.map Atom.position =
        g.per_atom.map (fun a => a.position.round8) :=
      forall₂_map_eq _ _ (fun a b hab => hab.2) hrel
    refine geometry_eq_of_parts _ g hpl ?_ hnum_eq ?_
    · exact hcell
    · rw [hpos_eq, List.map_map]
      rfl

/-- Witness for C5: the round trip at the null sentinel geometry. -/
theorem c5_witness :
    (∀ a ∈ NullState.per_atom, a.number < 119) ∧
    (∃ x g2, NullState.to_string = some x ∧
      Geometry.from_string x = some g2 ∧
      Geometry.copy NullState = some g2 ∧
      Geometry.eq g2 NullState = true) :=
  ⟨by with_unfolding_all decide,
    c5_serialization_roundtrip NullState (by with_unfolding_all decide)⟩

/-- Counterexample to the unrestricted C5: a geometry carrying atomic
number 200 (constructible through Geometry.from_data, since numbers are
stored as uint8) has no chemical symbol, so to_string raises IndexError
at chemical_symbols[200] and the round trip fails instead of returning an
equal geometry. -/
theorem c5_counterexample :
    (Geometry.from_data [200] [Vec3.zero] none).to_string = none ∧
    Geometry.copy (Geometry.from_data [200] [Vec3.zero] none) = none :=
  ⟨by with_unfolding_all rfl, by with_unfolding_all rfl⟩

set_option maxRecDepth 100000 in
/-- C2: counterexample showing the claim is a code bug.  When the parsed
output coordinates deviate from the input positions by more than 0.01
Angstrom, parse_cp2k_output raises an AssertionError (the bare assert
np.allclose cross-check) and the exception propagates out of
cp2k_singlepoint_post instead of the promised null sentinel annotated
with the stdout pointer. -/
theorem c2_assertion_escapes :
    parse_cp2k_output contentC2 ["energy"] geomC2 =
      .error "AssertionError: positions deviate beyond 0.01 Angstrom" ∧
    cp2k_singlepoint_post geomC2 ["energy"] "cp2k.out" contentC2 =
      .error "AssertionError: positions deviate beyond 0.01 Angstrom" := by
  constructor
  · with_unfolding_all rfl
  · with_unfolding_all rfl
